import Mathlib

/-!
Verification of the MBP-10 order-book reconstruction engine
(`src/OrderBook.cpp`, `src/main.cpp` of the mbp_reconstructor repository).

The C++ core is shallowly embedded:

* `std::map<uint64_t, PriceLevel, greater/less>` (the two book sides) is
  modelled as an association list `List (Nat × PriceLevel)` that the
  operations keep sorted by the side comparator (descending keys for bids,
  ascending for asks), mirroring the ordered iteration of `std::map`.
  Erasure is by key filter: in every map the operations build, keys are
  unique, where removing all entries of a key equals `std::map::erase`.
* `std::unordered_map<uint64_t, OrderInfo>` (`active_orders`) is an
  association list; `operator[]` replaces the entry in place or appends.
* `uint32_t` / `uint64_t` counters are `Nat` with arithmetic taken
  `% 2^32` / `% 2^64` at every operation that the C++ performs on them.
* Scaled prices (`price * 1e9` stored in `uint64_t`) are kept in scaled
  integer form throughout; the C++ converts to `double` only when a
  snapshot row is materialized, and that conversion is a fixed injective
  rescaling, so snapshot levels here carry the scaled price.
* Performance statistics, timers and logging are omitted: they do not
  touch the book state or the emitted rows.
* Opaque metadata copied verbatim into snapshots (timestamps, flags,
  sequence, symbol) is elided from `MBPRow`; only fields the claims
  inspect are kept, each filled exactly as the source fills it.
-/

namespace MBP

/-- Event side characters `SIDE_BID = B`, `SIDE_ASK = A`, `SIDE_NEUTRAL = N`
(`Utils.hpp`). -/
inductive Side where
  | B : Side
  | A : Side
  | N : Side
deriving DecidableEq

/-- Event action characters `ACTION_ADD/CANCEL/TRADE/FILL/CLEAR` (`Utils.hpp`). -/
inductive Action where
  | add : Action
  | cancel : Action
  | trade : Action
  | fill : Action
  | clear : Action
deriving DecidableEq

/-- The fields of `struct Order` (`Order.hpp`) that the engine reads.
`price_scaled` is the `uint64_t` scaled price, `size` the `uint32_t`
quantity. -/
structure Order where
  order_id : Nat
  price_scaled : Nat
  size : Nat
  side : Side
  action : Action
deriving DecidableEq

/-- `2^32`, the modulus of `uint32_t` arithmetic. -/
def U32 : Nat := 2 ^ 32

/-- `2^64`, the modulus of `uint64_t` arithmetic. -/
def U64 : Nat := 2 ^ 64

/-- `OrderBook::PriceLevel` (`OrderBook.hpp`): one side's aggregate at one
scaled price, with the resident order ids in insertion order
(`std::vector<uint64_t> order_ids`). -/
structure PriceLevel where
  price_scaled : Nat
  total_size : Nat
  order_count : Nat
  order_ids : List Nat
deriving DecidableEq

/-- `PriceLevel(price, size, order_id)`: the one-order level constructor. -/
def PriceLevel.init (price sz id : Nat) : PriceLevel :=
  { price_scaled := price, total_size := sz, order_count := 1, order_ids := [id] }

/-- `PriceLevel::add_order`: push the id, grow size and count
(`uint64_t`/`uint32_t` arithmetic). -/
def PriceLevel.addOrder (l : PriceLevel) (id sz : Nat) : PriceLevel :=
  { l with order_ids := l.order_ids ++ [id],
           total_size := (l.total_size + sz) % U64,
           order_count := (l.order_count + 1) % U32 }

/-- `PriceLevel::remove_order`: `std::find` the id, erase its first
occurrence, shrink size and count, report whether the count reached 0.
If the id is absent nothing changes and `false` is returned. -/
def PriceLevel.removeOrder (l : PriceLevel) (id sz : Nat) : PriceLevel × Bool :=
  if id ∈ l.order_ids then
    let l2 : PriceLevel :=
      { l with order_ids := l.order_ids.erase id,
               total_size := (l.total_size + (U64 - sz % U64)) % U64,
               order_count := (l.order_count + (U32 - 1)) % U32 }
    (l2, l2.order_count == 0)
  else (l, false)

/-- `OrderBook::OrderInfo`: the `active_orders` payload `(side, price, size)`. -/
structure OrderInfo where
  side : Side
  price_scaled : Nat
  size : Nat
deriving DecidableEq

/-- One side of the book: `std::map<uint64_t, PriceLevel>` as an
association list in the comparator's iteration order. -/
abbrev LevelMap := List (Nat × PriceLevel)

/-- Key comparison of the bid map, `std::greater<uint64_t>`:
`a` is iterated before `b` iff `a > b`. -/
def bidLt (a b : Nat) : Bool := decide (b < a)

/-- Key comparison of the ask map, `std::less<uint64_t>`. -/
def askLt (a b : Nat) : Bool := decide (a < b)

/-- `std::map::find` on the association list. -/
def mapFind : LevelMap → Nat → Option PriceLevel
  | [], _ => none
  | (k, v) :: t, p => if k = p then some v else mapFind t p

/-- Keyed insertion at the comparator's position; an existing entry with
the same key is replaced in place (`std::map` assignment through
`operator[]` or an iterator). -/
def mapInsert (lt : Nat → Nat → Bool) : LevelMap → Nat → PriceLevel → LevelMap
  | [], p, v => [(p, v)]
  | (k, w) :: t, p, v =>
    if lt p k then (p, v) :: (k, w) :: t
    else if p = k then (p, v) :: t
    else (k, w) :: mapInsert lt t p v

/-- `std::map::erase` of one key.  The maps the operations build have
unique keys, so dropping every entry with the key equals erasing the
single iterator the C++ erases. -/
def mapErase (m : LevelMap) (p : Nat) : LevelMap :=
  m.filter (fun e => ¬ e.1 = p)

/-- `std::unordered_map::find` on the association list. -/
def ordFind : List (Nat × OrderInfo) → Nat → Option OrderInfo
  | [], _ => none
  | (k, v) :: t, id => if k = id then some v else ordFind t id

/-- `active_orders[id] = info`: replace the live entry or append a new one. -/
def ordInsert : List (Nat × OrderInfo) → Nat → OrderInfo → List (Nat × OrderInfo)
  | [], id, v => [(id, v)]
  | (k, w) :: t, id, v =>
    if k = id then (id, v) :: t else (k, w) :: ordInsert t id v

/-- `std::unordered_map::erase` of one key (keys are unique, see `mapErase`). -/
def ordErase (m : List (Nat × OrderInfo)) (id : Nat) : List (Nat × OrderInfo) :=
  m.filter (fun e => ¬ e.1 = id)

/-- The mutable state of `class OrderBook`: the two sorted price maps and
the per-order index (`OrderBook.hpp`). -/
structure Book where
  bid_levels : LevelMap
  ask_levels : LevelMap
  active_orders : List (Nat × OrderInfo)
deriving DecidableEq

/-- The book after construction or `OrderBook::clear()`. -/
def emptyBook : Book := { bid_levels := [], ask_levels := [], active_orders := [] }

/-- The side map a given `Side` character selects; `N` selects nothing. -/
def sideMap (b : Book) : Side → LevelMap
  | Side.B => b.bid_levels
  | Side.A => b.ask_levels
  | Side.N => []

/-- `Utils::MAX_DEPTH`. -/
def MAX_DEPTH : Nat := 10

/-- The loop body of `OrderBook::get_price_depth`: walk the entries in
iteration order; on a key match return the 0-based position; stop once
the position counter reaches `MAX_DEPTH`; otherwise `-1`. -/
def depthScan : LevelMap → Nat → Nat → Int
  | [], _, _ => -1
  | (k, _) :: t, p, d =>
    if k = p then (d : Int)
    else if MAX_DEPTH ≤ d + 1 then -1
    else depthScan t p (d + 1)

/-- `OrderBook::get_price_depth(side, price_scaled)`: rank of the price in
the side's first ten levels, `-1` if absent there (and for side `N`,
where neither branch runs). -/
def get_price_depth (b : Book) (s : Side) (p : Nat) : Int :=
  depthScan (sideMap b s) p 0

/-- `OrderBook::affects_top_levels`. -/
def affects_top_levels (b : Book) (s : Side) (p : Nat) : Bool :=
  let d := get_price_depth b s p
  decide (0 ≤ d) && decide (d < (MAX_DEPTH : Int))

/-- `OrderBook::add_order` (`OrderBook.cpp` lines 96-128): validate, index
the order, insert into the side's level (fresh `PriceLevel` when the
slot is new or empty, `add_order` otherwise), and report whether the
declared (side, price) now sits in the top ten. -/
def add_order (b : Book) (o : Order) : Book × Bool :=
  if o.side = Side.N ∨ o.price_scaled = 0 ∨ o.size = 0 then (b, false)
  else
    let info : OrderInfo :=
      { side := o.side, price_scaled := o.price_scaled, size := o.size }
    let b1 : Book :=
      { b with active_orders := ordInsert b.active_orders o.order_id info }
    let b2 : Book :=
      if o.side = Side.B then
        let lvl : PriceLevel :=
          match mapFind b1.bid_levels o.price_scaled with
          | some l =>
            if l.order_count = 0 then PriceLevel.init o.price_scaled o.size o.order_id
            else l.addOrder o.order_id o.size
          | none => PriceLevel.init o.price_scaled o.size o.order_id
        { b1 with bid_levels := mapInsert bidLt b1.bid_levels o.price_scaled lvl }
      else
        let lvl : PriceLevel :=
          match mapFind b1.ask_levels o.price_scaled with
          | some l =>
            if l.order_count = 0 then PriceLevel.init o.price_scaled o.size o.order_id
            else l.addOrder o.order_id o.size
          | none => PriceLevel.init o.price_scaled o.size o.order_id
        { b1 with ask_levels := mapInsert askLt b1.ask_levels o.price_scaled lvl }
    (b2, affects_top_levels b2 o.side o.price_scaled)

/-- `OrderBook::cancel_order` (`OrderBook.cpp` lines 130-164): look the id
up in `active_orders` (absent means no-op / `false`); record the top-ten
test of the stored (side, price) before mutating; remove the id from its
level, dropping the level when its count reaches zero; erase the index
entry.  Only `order.order_id` is read from the event. -/
def cancel_order (b : Book) (o : Order) : Book × Bool :=
  match ordFind b.active_orders o.order_id with
  | none => (b, false)
  | some info =>
    let affects := affects_top_levels b info.side info.price_scaled
    let b1 : Book :=
      if info.side = Side.B then
        match mapFind b.bid_levels info.price_scaled with
        | some lvl =>
          let r := lvl.removeOrder o.order_id info.size
          if r.2 then { b with bid_levels := mapErase b.bid_levels info.price_scaled }
          else { b with bid_levels := mapInsert bidLt b.bid_levels info.price_scaled r.1 }
        | none => b
      else if info.side = Side.A then
        match mapFind b.ask_levels info.price_scaled with
        | some lvl =>
          let r := lvl.removeOrder o.order_id info.size
          if r.2 then { b with ask_levels := mapErase b.ask_levels info.price_scaled }
          else { b with ask_levels := mapInsert askLt b.ask_levels info.price_scaled r.1 }
        | none => b
      else b
    let b2 : Book := { b1 with active_orders := ordErase b1.active_orders o.order_id }
    (b2, affects)

/-- `OrderBook::process_trade` (`OrderBook.cpp` lines 166-206): side `N`
is ignored; otherwise the effective side flips to the opposite side when
the declared side has no (or an empty) level at the trade price, and the
result is the top-ten test of the effective side.  The book is not
touched. -/
def process_trade (b : Book) (o : Order) : Bool :=
  if o.side = Side.N then false
  else
    let eff : Side :=
      if o.side = Side.A then
        match mapFind b.ask_levels o.price_scaled with
        | none => Side.B
        | some l => if l.order_count = 0 then Side.B else Side.A
      else if o.side = Side.B then
        match mapFind b.bid_levels o.price_scaled with
        | none => Side.A
        | some l => if l.order_count = 0 then Side.A else Side.B
      else o.side
    affects_top_levels b eff o.price_scaled

/-- One `(price, size, count)` triple of a snapshot row, price in scaled
form (the source renders `price_scaled / 1e9` here). -/
structure MBPLevel where
  price_scaled : Nat
  size : Nat
  count : Nat
deriving DecidableEq

/-- An unpopulated snapshot slot (`MBPRow::Level()` zeros). -/
def zeroLevel : MBPLevel := { price_scaled := 0, size := 0, count := 0 }

/-- `OrderBook::update_bid_levels` / `update_ask_levels`: up to ten
triples from the map in iteration order, remaining slots zeroed.  Each
triple takes the level's stored `price_scaled`, `total_size`,
`order_count`. -/
def topLevels (m : LevelMap) : List MBPLevel :=
  (m.take MAX_DEPTH).map
      (fun e => { price_scaled := e.2.price_scaled, size := e.2.total_size,
                  count := e.2.order_count })
    ++ List.replicate (MAX_DEPTH - m.length) zeroLevel

/-- The claim-relevant fields of `OrderBook::MBPRow`. -/
structure MBPRow where
  action : Action
  side : Side
  depth : Int
  price_scaled : Nat
  size : Nat
  order_id : Nat
  bid_levels : List MBPLevel
  ask_levels : List MBPLevel
deriving DecidableEq

/-- `OrderBook::generate_mbp_snapshot`: copy the triggering event's
metadata, set `depth` from the event's declared side and price on the
current book, and materialize both top-ten arrays. -/
def generate_mbp_snapshot (b : Book) (o : Order) : MBPRow :=
  { action := o.action, side := o.side,
    depth := get_price_depth b o.side o.price_scaled,
    price_scaled := o.price_scaled, size := o.size, order_id := o.order_id,
    bid_levels := topLevels b.bid_levels,
    ask_levels := topLevels b.ask_levels }

/-- `OrderBook::process_order` (`OrderBook.cpp` lines 43-94): dispatch on
the action, then emit a snapshot of the post-mutation book exactly when
the handler reported a top-ten change.  `Clear` empties the book and
emits nothing; `Fill` is a no-op. -/
def process_order (b : Book) (o : Order) : Book × Option MBPRow :=
  let step : Book × Bool :=
    match o.action with
    | Action.clear => (emptyBook, false)
    | Action.add => add_order b o
    | Action.cancel => cancel_order b o
    | Action.trade => (b, process_trade b o)
    | Action.fill => (b, false)
  if step.2 then (step.1, some (generate_mbp_snapshot step.1 o)) else (step.1, none)

/-- The reconstruction driver state of `process_reconstruction`
(`main.cpp` lines 126-172): the book, the `first_clear_ignored` flag,
and the rows written so far (a row's index is its position). -/
structure Recon where
  book : Book
  first_clear_ignored : Bool
  rows : List MBPRow

/-- Driver state at the top of the processing loop. -/
def initRecon : Recon := { book := emptyBook, first_clear_ignored := false, rows := [] }

/-- One iteration of the `main.cpp` processing loop: the first `Clear`
ever seen is skipped outright (flag set, nothing else); every other
event goes through `process_order`, and a returned row is appended to
the output. -/
def rstep (st : Recon) (ev : Order) : Recon :=
  if st.first_clear_ignored = false ∧ ev.action = Action.clear then
    { st with first_clear_ignored := true }
  else
    match process_order st.book ev with
    | (b2, some row) => { st with book := b2, rows := st.rows ++ [row] }
    | (b2, none) => { st with book := b2 }

/-- Run the driver over an event list from a fresh engine. -/
def runEvents (evs : List Order) : Recon :=
  evs.foldl rstep initRecon

/-! ### Association-list and map lemmas -/

/-- The representation predicate of a `std::map` side: entries are
pairwise ordered by the comparator (hence keys are unique). -/
def SortedM (lt : Nat → Nat → Bool) (m : LevelMap) : Prop :=
  List.Pairwise (fun a b => lt a.1 b.1 = true) m

theorem mapFind_cons_self (k : Nat) (w : PriceLevel) (t : LevelMap) :
    mapFind ((k, w) :: t) k = some w := by
  simp [mapFind]

theorem mapFind_cons_ne {k p : Nat} (h : ¬ k = p) (w : PriceLevel) (t : LevelMap) :
    mapFind ((k, w) :: t) p = mapFind t p := by
  simp [mapFind, h]

theorem mapInsert_cons_before {lt : Nat → Nat → Bool} {k p : Nat}
    (h : lt p k = true) (w v : PriceLevel) (t : LevelMap) :
    mapInsert lt ((k, w) :: t) p v = (p, v) :: (k, w) :: t := by
  simp only [mapInsert]
  rw [if_pos h]

theorem mapInsert_cons_hit {lt : Nat → Nat → Bool} {k p : Nat}
    (h1 : lt p k = false) (h2 : p = k) (w v : PriceLevel) (t : LevelMap) :
    mapInsert lt ((k, w) :: t) p v = (p, v) :: t := by
  simp only [mapInsert]
  rw [if_neg (by simp [h1]), if_pos h2]

theorem mapInsert_cons_skip {lt : Nat → Nat → Bool} {k p : Nat}
    (h1 : lt p k = false) (h2 : ¬ p = k) (w v : PriceLevel) (t : LevelMap) :
    mapInsert lt ((k, w) :: t) p v = (k, w) :: mapInsert lt t p v := by
  simp only [mapInsert]
  rw [if_neg (by simp [h1]), if_neg h2]

theorem mapErase_cons_hit {k p : Nat} (h : k = p) (w : PriceLevel) (t : LevelMap) :
    mapErase ((k, w) :: t) p = mapErase t p := by
  simp [mapErase, h]

theorem mapErase_cons_ne {k p : Nat} (h : ¬ k = p) (w : PriceLevel) (t : LevelMap) :
    mapErase ((k, w) :: t) p = (k, w) :: mapErase t p := by
  simp [mapErase, h]

theorem mapFind_insert_self (lt : Nat → Nat → Bool) (m : LevelMap) (p : Nat)
    (v : PriceLevel) : mapFind (mapInsert lt m p v) p = some v := by
  induction m with
  | nil => simp [mapInsert, mapFind]
  | cons e t ih =>
    obtain ⟨k, w⟩ := e
    cases h1 : lt p k with
    | true => rw [mapInsert_cons_before h1, mapFind_cons_self]
    | false =>
      by_cases h2 : p = k
      · rw [mapInsert_cons_hit h1 h2, mapFind_cons_self]
      · rw [mapInsert_cons_skip h1 h2, mapFind_cons_ne (fun h => h2 h.symm), ih]

theorem mapFind_insert_ne (lt : Nat → Nat → Bool) (m : LevelMap) (p q : Nat)
    (v : PriceLevel) (hq : q ≠ p) :
    mapFind (mapInsert lt m p v) q = mapFind m q := by
  induction m with
  | nil => simp [mapInsert, mapFind, Ne.symm hq]
  | cons e t ih =>
    obtain ⟨k, w⟩ := e
    cases h1 : lt p k with
    | true => rw [mapInsert_cons_before h1, mapFind_cons_ne (fun h => hq h.symm)]
    | false =>
      by_cases h2 : p = k
      · subst h2
        rw [mapInsert_cons_hit h1 rfl, mapFind_cons_ne (fun h => hq h.symm),
          mapFind_cons_ne (fun h => hq h.symm)]
      · by_cases h3 : k = q
        · subst h3
          rw [mapInsert_cons_skip h1 h2, mapFind_cons_self, mapFind_cons_self]
        · rw [mapInsert_cons_skip h1 h2, mapFind_cons_ne h3, mapFind_cons_ne h3, ih]

theorem mapFind_erase_self (m : LevelMap) (p : Nat) :
    mapFind (mapErase m p) p = none := by
  induction m with
  | nil => rfl
  | cons e t ih =>
    obtain ⟨k, w⟩ := e
    by_cases h : k = p
    · rw [mapErase_cons_hit h, ih]
    · rw [mapErase_cons_ne h, mapFind_cons_ne h, ih]

theorem mapFind_erase_ne (m : LevelMap) (p q : Nat) (hq : q ≠ p) :
    mapFind (mapErase m p) q = mapFind m q := by
  induction m with
  | nil => rfl
  | cons e t ih =>
    obtain ⟨k, w⟩ := e
    by_cases h : k = p
    · subst h
      rw [mapErase_cons_hit rfl, mapFind_cons_ne (fun h2 => hq h2.symm), ih]
    · by_cases h2 : k = q
      · subst h2
        rw [mapErase_cons_ne h, mapFind_cons_self, mapFind_cons_self]
      · rw [mapErase_cons_ne h, mapFind_cons_ne h2, mapFind_cons_ne h2, ih]

theorem mapFind_eq_none_iff (m : LevelMap) (p : Nat) :
    mapFind m p = none ↔ p ∉ m.map Prod.fst := by
  induction m with
  | nil => simp [mapFind]
  | cons e t ih =>
    obtain ⟨k, w⟩ := e
    by_cases h : k = p
    · simp [mapFind, h]
    · simp [mapFind, h, ih, Ne.symm h]

theorem mapFind_mem {m : LevelMap} {p : Nat} {v : PriceLevel}
    (h : mapFind m p = some v) : (p, v) ∈ m := by
  induction m with
  | nil => simp [mapFind] at h
  | cons e t ih =>
    obtain ⟨k, w⟩ := e
    by_cases h1 : k = p
    · subst h1
      rw [mapFind_cons_self] at h
      cases h
      exact List.mem_cons_self _ _
    · rw [mapFind_cons_ne h1] at h
      exact List.mem_cons_of_mem _ (ih h)

theorem mapErase_eq_self {m : LevelMap} {p : Nat} (h : p ∉ m.map Prod.fst) :
    mapErase m p = m := by
  induction m with
  | nil => rfl
  | cons e t ih =>
    obtain ⟨k, w⟩ := e
    simp only [List.map_cons, List.mem_cons, not_or] at h
    rw [mapErase_cons_ne (fun h2 => h.1 h2.symm), ih h.2]

theorem mapErase_insert (lt : Nat → Nat → Bool) {m : LevelMap} {p : Nat}
    (v : PriceLevel) (h : p ∉ m.map Prod.fst) :
    mapErase (mapInsert lt m p v) p = m := by
  induction m with
  | nil => simp [mapInsert, mapErase]
  | cons e t ih =>
    obtain ⟨k, w⟩ := e
    simp only [List.map_cons, List.mem_cons, not_or] at h
    cases h1 : lt p k with
    | true =>
      rw [mapInsert_cons_before h1, mapErase_cons_hit rfl,
        mapErase_cons_ne (fun h2 => h.1 h2.symm)]
      rw [mapErase_eq_self h.2]
    | false =>
      by_cases h2 : p = k
      · exact absurd h2 h.1
      · rw [mapInsert_cons_skip h1 h2, mapErase_cons_ne (fun h3 => h.1 h3.symm), ih h.2]

theorem mapInsert_insert (lt : Nat → Nat → Bool) {p : Nat}
    (hirr : lt p p = false) (m : LevelMap) (v1 v2 : PriceLevel) :
    mapInsert lt (mapInsert lt m p v1) p v2 = mapInsert lt m p v2 := by
  induction m with
  | nil =>
    show mapInsert lt [(p, v1)] p v2 = [(p, v2)]
    rw [mapInsert_cons_hit hirr rfl]
  | cons e t ih =>
    obtain ⟨k, w⟩ := e
    cases h1 : lt p k with
    | true =>
      rw [mapInsert_cons_before h1, mapInsert_cons_before h1,
        mapInsert_cons_hit hirr rfl]
    | false =>
      by_cases h2 : p = k
      · subst h2
        rw [mapInsert_cons_hit h1 rfl, mapInsert_cons_hit h1 rfl,
          mapInsert_cons_hit hirr rfl]
      · rw [mapInsert_cons_skip h1 h2, mapInsert_cons_skip h1 h2,
          mapInsert_cons_skip h1 h2, ih]

theorem mem_mapInsert {lt : Nat → Nat → Bool} {m : LevelMap} {p : Nat}
    {v : PriceLevel} {x : Nat × PriceLevel} (h : x ∈ mapInsert lt m p v) :
    x ∈ m ∨ x = (p, v) := by
  induction m with
  | nil =>
    simp only [mapInsert] at h
    exact Or.inr (List.mem_singleton.mp h)
  | cons e t ih =>
    obtain ⟨k, w⟩ := e
    cases h1 : lt p k with
    | true =>
      rw [mapInsert_cons_before h1] at h
      rcases List.mem_cons.mp h with h2 | h2
      · exact Or.inr h2
      · exact Or.inl h2
    | false =>
      by_cases h2 : p = k
      · rw [mapInsert_cons_hit h1 h2] at h
        rcases List.mem_cons.mp h with h3 | h3
        · exact Or.inr h3
        · exact Or.inl (List.mem_cons_of_mem _ h3)
      · rw [mapInsert_cons_skip h1 h2] at h
        rcases List.mem_cons.mp h with h3 | h3
        · exact Or.inl (h3 ▸ List.mem_cons_self _ _)
        · rcases ih h3 with h4 | h4
          · exact Or.inl (List.mem_cons_of_mem _ h4)
          · exact Or.inr h4

theorem mapInsert_of_find {lt : Nat → Nat → Bool}
    (hasym : ∀ a b, lt a b = true → lt b a = false)
    {m : LevelMap} {p : Nat} {v : PriceLevel}
    (hs : SortedM lt m) (h : mapFind m p = some v) :
    mapInsert lt m p v = m := by
  induction m with
  | nil => simp [mapFind] at h
  | cons e t ih =>
    obtain ⟨k, w⟩ := e
    rw [SortedM, List.pairwise_cons] at hs
    by_cases h1 : k = p
    · subst h1
      rw [mapFind_cons_self] at h
      cases h
      have hirr : lt k k = false := by
        cases hlt : lt k k with
        | false => rfl
        | true => exact absurd (hasym _ _ hlt) (by simp [hlt])
      rw [mapInsert_cons_hit hirr rfl]
    · rw [mapFind_cons_ne h1] at h
      have hmem : (p, v) ∈ t := mapFind_mem h
      have hkp : lt k p = true := hs.1 _ hmem
      rw [mapInsert_cons_skip (hasym _ _ hkp) (fun h3 => h1 h3.symm), ih hs.2 h]

theorem sortedM_mapInsert {lt : Nat → Nat → Bool}
    (htrans : ∀ a b c, lt a b = true → lt b c = true → lt a c = true)
    (htot : ∀ a b : Nat, a ≠ b → lt a b = true ∨ lt b a = true)
    {m : LevelMap} {p : Nat} (v : PriceLevel) (hs : SortedM lt m) :
    SortedM lt (mapInsert lt m p v) := by
  induction m with
  | nil => simp [mapInsert, SortedM]
  | cons e t ih =>
    obtain ⟨k, w⟩ := e
    rw [SortedM, List.pairwise_cons] at hs
    cases h1 : lt p k with
    | true =>
      rw [mapInsert_cons_before h1]
      rw [SortedM, List.pairwise_cons]
      refine ⟨?_, List.pairwise_cons.mpr hs⟩
      intro a ha
      rcases List.mem_cons.mp ha with h2 | h2
      · rw [h2]
        exact h1
      · exact htrans _ _ _ h1 (hs.1 _ h2)
    | false =>
      by_cases h2 : p = k
      · rw [mapInsert_cons_hit h1 h2]
        rw [SortedM, List.pairwise_cons]
        refine ⟨?_, hs.2⟩
        intro a ha
        rw [h2]
        exact hs.1 _ ha
      · rw [mapInsert_cons_skip h1 h2]
        rw [SortedM, List.pairwise_cons]
        refine ⟨?_, ih hs.2⟩
        intro a ha
        rcases mem_mapInsert ha with h3 | h3
        · exact hs.1 _ h3
        · rw [h3]
          rcases htot k p (fun hkp => h2 hkp.symm) with h4 | h4
          · exact h4
          · rw [h4] at h1
            cases h1

theorem sortedM_mapErase {lt : Nat → Nat → Bool} {m : LevelMap} {p : Nat}
    (hs : SortedM lt m) : SortedM lt (mapErase m p) :=
  List.Pairwise.sublist (List.filter_sublist m) hs

theorem bidLt_asym (a b : Nat) : bidLt a b = true → bidLt b a = false := by
  simp only [bidLt, decide_eq_true_eq, decide_eq_false_iff_not]
  omega

theorem askLt_asym (a b : Nat) : askLt a b = true → askLt b a = false := by
  simp only [askLt, decide_eq_true_eq, decide_eq_false_iff_not]
  omega

theorem bidLt_trans (a b c : Nat) :
    bidLt a b = true → bidLt b c = true → bidLt a c = true := by
  simp only [bidLt, decide_eq_true_eq]
  omega

theorem askLt_trans (a b c : Nat) :
    askLt a b = true → askLt b c = true → askLt a c = true := by
  simp only [askLt, decide_eq_true_eq]
  omega

theorem bidLt_total (a b : Nat) (h : a ≠ b) : bidLt a b = true ∨ bidLt b a = true := by
  simp only [bidLt, decide_eq_true_eq]
  omega

theorem askLt_total (a b : Nat) (h : a ≠ b) : askLt a b = true ∨ askLt b a = true := by
  simp only [askLt, decide_eq_true_eq]
  omega

theorem bidLt_irrefl (a : Nat) : bidLt a a = false := by
  simp [bidLt]

theorem askLt_irrefl (a : Nat) : askLt a a = false := by
  simp [askLt]

theorem ordFind_cons_self (k : Nat) (w : OrderInfo) (t : List (Nat × OrderInfo)) :
    ordFind ((k, w) :: t) k = some w := by
  simp [ordFind]

theorem ordFind_cons_ne {k q : Nat} (h : ¬ k = q) (w : OrderInfo)
    (t : List (Nat × OrderInfo)) : ordFind ((k, w) :: t) q = ordFind t q := by
  simp [ordFind, h]

theorem ordInsert_cons_hit {k id : Nat} (h : k = id) (w v : OrderInfo)
    (t : List (Nat × OrderInfo)) :
    ordInsert ((k, w) :: t) id v = (id, v) :: t := by
  simp [ordInsert, h]

theorem ordInsert_cons_skip {k id : Nat} (h : ¬ k = id) (w v : OrderInfo)
    (t : List (Nat × OrderInfo)) :
    ordInsert ((k, w) :: t) id v = (k, w) :: ordInsert t id v := by
  simp [ordInsert, h]

theorem ordErase_cons_hit {k id : Nat} (h : k = id) (w : OrderInfo)
    (t : List (Nat × OrderInfo)) :
    ordErase ((k, w) :: t) id = ordErase t id := by
  simp [ordErase, h]

theorem ordErase_cons_ne {k id : Nat} (h : ¬ k = id) (w : OrderInfo)
    (t : List (Nat × OrderInfo)) :
    ordErase ((k, w) :: t) id = (k, w) :: ordErase t id := by
  simp [ordErase, h]

theorem ordFind_insert_self (m : List (Nat × OrderInfo)) (id : Nat) (v : OrderInfo) :
    ordFind (ordInsert m id v) id = some v := by
  induction m with
  | nil => simp [ordInsert, ordFind]
  | cons e t ih =>
    obtain ⟨k, w⟩ := e
    by_cases h : k = id
    · rw [ordInsert_cons_hit h, ordFind_cons_self]
    · rw [ordInsert_cons_skip h, ordFind_cons_ne h, ih]

theorem ordFind_insert_ne (m : List (Nat × OrderInfo)) (id q : Nat) (v : OrderInfo)
    (hq : q ≠ id) : ordFind (ordInsert m id v) q = ordFind m q := by
  induction m with
  | nil => simp [ordInsert, ordFind, Ne.symm hq]
  | cons e t ih =>
    obtain ⟨k, w⟩ := e
    by_cases h : k = id
    · subst h
      rw [ordInsert_cons_hit rfl, ordFind_cons_ne (fun h2 => hq h2.symm),
        ordFind_cons_ne (fun h2 => hq h2.symm)]
    · by_cases h2 : k = q
      · subst h2
        rw [ordInsert_cons_skip h, ordFind_cons_self, ordFind_cons_self]
      · rw [ordInsert_cons_skip h, ordFind_cons_ne h2, ordFind_cons_ne h2, ih]

theorem ordFind_erase_self (m : List (Nat × OrderInfo)) (id : Nat) :
    ordFind (ordErase m id) id = none := by
  induction m with
  | nil => rfl
  | cons e t ih =>
    obtain ⟨k, w⟩ := e
    by_cases h : k = id
    · rw [ordErase_cons_hit h, ih]
    · rw [ordErase_cons_ne h, ordFind_cons_ne h, ih]

theorem ordFind_erase_ne (m : List (Nat × OrderInfo)) (id q : Nat) (hq : q ≠ id) :
    ordFind (ordErase m id) q = ordFind m q := by
  induction m with
  | nil => rfl
  | cons e t ih =>
    obtain ⟨k, w⟩ := e
    by_cases h : k = id
    · subst h
      rw [ordErase_cons_hit rfl, ordFind_cons_ne (fun h2 => hq h2.symm), ih]
    · by_cases h2 : k = q
      · subst h2
        rw [ordErase_cons_ne h, ordFind_cons_self, ordFind_cons_self]
      · rw [ordErase_cons_ne h, ordFind_cons_ne h2, ordFind_cons_ne h2, ih]

theorem ordInsert_of_find_none {m : List (Nat × OrderInfo)} {id : Nat}
    (v : OrderInfo) (h : ordFind m id = none) :
    ordInsert m id v = m ++ [(id, v)] := by
  induction m with
  | nil => rfl
  | cons e t ih =>
    obtain ⟨k, w⟩ := e
    by_cases h1 : k = id
    · rw [h1, ordFind_cons_self] at h
      cases h
    · rw [ordFind_cons_ne h1] at h
      rw [ordInsert_cons_skip h1, ih h, List.cons_append]

theorem ordErase_append (m : List (Nat × OrderInfo)) {id : Nat} (v : OrderInfo)
    (h : ordFind m id = none) :
    ordErase (m ++ [(id, v)]) id = m := by
  induction m with
  | nil => simp [ordErase]
  | cons e t ih =>
    obtain ⟨k, w⟩ := e
    by_cases h1 : k = id
    · rw [h1, ordFind_cons_self] at h
      cases h
    · rw [ordFind_cons_ne h1] at h
      rw [List.cons_append, ordErase_cons_ne h1, ih h]

/-! ### The depth scan and the top-ten predicate -/

theorem depthScan_lt_ten {m : LevelMap} {p d : Nat} (h : d < MAX_DEPTH) :
    depthScan m p d < (MAX_DEPTH : Int) := by
  induction m generalizing d with
  | nil =>
    show (-1 : Int) < (MAX_DEPTH : Int)
    norm_num [MAX_DEPTH]
  | cons e t ih =>
    obtain ⟨k, w⟩ := e
    by_cases h1 : k = p
    · simp only [depthScan, if_pos h1]
      exact_mod_cast h
    · simp only [depthScan, if_neg h1]
      by_cases h2 : MAX_DEPTH ≤ d + 1
      · rw [if_pos h2]
        norm_num [MAX_DEPTH]
      · rw [if_neg h2]
        exact ih (by omega)

theorem depthScan_nonneg_iff {m : LevelMap} {p : Nat} {d : Nat} (h : d < MAX_DEPTH) :
    0 ≤ depthScan m p d ↔ p ∈ (m.take (MAX_DEPTH - d)).map Prod.fst := by
  induction m generalizing d with
  | nil =>
    show (0 : Int) ≤ -1 ↔ _
    simp
  | cons e t ih =>
    obtain ⟨k, w⟩ := e
    have htake : MAX_DEPTH - d = (MAX_DEPTH - (d + 1)) + 1 := by
      unfold MAX_DEPTH at h ⊢
      omega
    rw [htake, List.take_succ_cons]
    by_cases h1 : k = p
    · simp only [depthScan, if_pos h1]
      constructor
      · intro _
        rw [h1]
        simp
      · intro _
        exact_mod_cast Int.ofNat_nonneg d
    · simp only [depthScan, if_neg h1]
      by_cases h2 : MAX_DEPTH ≤ d + 1
      · rw [if_pos h2]
        have hz : MAX_DEPTH - (d + 1) = 0 := by omega
        rw [hz]
        simp only [List.take_zero, List.map_cons, List.map_nil, List.mem_singleton]
        constructor
        · intro hc
          norm_num at hc
        · intro hc
          exact absurd hc.symm h1
      · rw [if_neg h2]
        rw [ih (by omega)]
        simp only [List.map_cons, List.mem_cons]
        constructor
        · intro hm
          exact Or.inr hm
        · intro hm
          rcases hm with hm | hm
          · exact absurd hm.symm h1
          · exact hm

/-- `affects_top_levels` holds exactly when the price is a key of the
side's first `MAX_DEPTH` map entries. -/
theorem affects_top_iff (b : Book) (s : Side) (p : Nat) :
    affects_top_levels b s p = true ↔
      p ∈ ((sideMap b s).take MAX_DEPTH).map Prod.fst := by
  unfold affects_top_levels get_price_depth
  have h1 : (0 : Nat) < MAX_DEPTH := by norm_num [MAX_DEPTH]
  have h2 := @depthScan_lt_ten (sideMap b s) p 0 h1
  have h3 := @depthScan_nonneg_iff (sideMap b s) p 0 h1
  rw [Nat.sub_zero] at h3
  simp only [Bool.and_eq_true, decide_eq_true_eq]
  constructor
  · intro hb
    exact h3.mp hb.1
  · intro hm
    exact ⟨h3.mpr hm, h2⟩

/-! ### Spec-side definitions

The next two definitions follow the words of the specification and of
the claims, not the code; the theorems relate the code's functions to
them. -/

/-- A side "holds a price within its top 10 levels": the scaled price is
among the keys of the first ten levels of that side's map. -/
def inTop10 (b : Book) (s : Side) (p : Nat) : Bool :=
  decide (p ∈ ((sideMap b s).take MAX_DEPTH).map Prod.fst)

/-- The effective side of a Trade event as the specification words it:
declared `Ask` with no (or an empty) ask level at the price gives `Bid`;
declared `Bid` with no (or an empty) bid level gives `Ask`; otherwise
the declared side. -/
def effSideSpec (b : Book) (o : Order) : Side :=
  match o.side with
  | Side.A =>
    match mapFind b.ask_levels o.price_scaled with
    | none => Side.B
    | some l => if l.order_count = 0 then Side.B else Side.A
  | Side.B =>
    match mapFind b.bid_levels o.price_scaled with
    | none => Side.A
    | some l => if l.order_count = 0 then Side.A else Side.B
  | Side.N => Side.N

/-! ### Claims about `process_trade` and `process_order` -/

/-- Claim C2: for every book state and Trade event, a Neutral declared
side returns `false`; otherwise the effective side is the
specification's (declared Ask with no or empty ask level at the price
gives Bid, symmetrically for Bid, else the declared side) and the trade
returns `true` iff the effective side holds the scaled price within its
top 10 levels. -/
theorem claim_C2 (b : Book) (o : Order) :
    (o.side = Side.N → process_trade b o = false) ∧
    (o.side ≠ Side.N →
      (process_trade b o = true ↔
        inTop10 b (effSideSpec b o) o.price_scaled = true)) := by
  constructor
  · intro h
    simp [process_trade, h]
  · intro h
    cases hs : o.side with
    | N => exact absurd hs h
    | A =>
      simp only [process_trade, effSideSpec, hs]
      cases hf : mapFind b.ask_levels o.price_scaled with
      | none => simp [inTop10, affects_top_iff]
      | some l =>
        by_cases hc : l.order_count = 0
        · simp [hc, inTop10, affects_top_iff]
        · simp [hc, inTop10, affects_top_iff]
    | B =>
      simp only [process_trade, effSideSpec, hs]
      cases hf : mapFind b.bid_levels o.price_scaled with
      | none => simp [inTop10, affects_top_iff]
      | some l =>
        by_cases hc : l.order_count = 0
        · simp [hc, inTop10, affects_top_iff]
        · simp [hc, inTop10, affects_top_iff]

/-- A concrete instance of C2: a one-level ask book and a Trade declared
on the resting Ask side. -/
theorem claim_C2_witness :
    (({ order_id := 0, price_scaled := 100, size := 5, side := Side.A,
        action := Action.trade } : Order).side = Side.N →
      process_trade
        ({ bid_levels := [], ask_levels := [(100, PriceLevel.init 100 5 3)],
           active_orders := [(3, { side := Side.A, price_scaled := 100, size := 5 })] })
        ({ order_id := 0, price_scaled := 100, size := 5, side := Side.A,
           action := Action.trade }) = false) ∧
    (({ order_id := 0, price_scaled := 100, size := 5, side := Side.A,
        action := Action.trade } : Order).side ≠ Side.N →
      (process_trade
          ({ bid_levels := [], ask_levels := [(100, PriceLevel.init 100 5 3)],
             active_orders := [(3, { side := Side.A, price_scaled := 100, size := 5 })] })
          ({ order_id := 0, price_scaled := 100, size := 5, side := Side.A,
             action := Action.trade }) = true ↔
        inTop10
          ({ bid_levels := [], ask_levels := [(100, PriceLevel.init 100 5 3)],
             active_orders := [(3, { side := Side.A, price_scaled := 100, size := 5 })] })
          (effSideSpec
            ({ bid_levels := [], ask_levels := [(100, PriceLevel.init 100 5 3)],
               active_orders := [(3, { side := Side.A, price_scaled := 100, size := 5 })] })
            ({ order_id := 0, price_scaled := 100, size := 5, side := Side.A,
               action := Action.trade }))
          ({ order_id := 0, price_scaled := 100, size := 5, side := Side.A,
             action := Action.trade } : Order).price_scaled = true)) :=
  claim_C2 _ _

/-- Claim C3: processing a Trade event through the dispatcher leaves the
whole book state (bid map, ask map, order index) unchanged. -/
theorem claim_C3 (b : Book) (o : Order) (h : o.action = Action.trade) :
    (process_order b o).1 = b := by
  simp only [process_order, h]
  by_cases h2 : process_trade b o = true <;> simp [h2]

/-- C3 at a concrete input: a trade on a non-empty one-bid book. -/
theorem claim_C3_witness :
    (process_order
      ({ bid_levels := [(100, PriceLevel.init 100 5 3)], ask_levels := [],
         active_orders := [(3, { side := Side.B, price_scaled := 100, size := 5 })] })
      ({ order_id := 0, price_scaled := 100, size := 5, side := Side.A,
         action := Action.trade })).1
    = ({ bid_levels := [(100, PriceLevel.init 100 5 3)], ask_levels := [],
         active_orders := [(3, { side := Side.B, price_scaled := 100, size := 5 })] }) :=
  claim_C3 _ _ rfl

/-- Claim C8: an Add whose side is neither Bid nor Ask, or whose scaled
price or size is zero, returns `false`, emits no snapshot, and leaves
the book untouched. -/
theorem claim_C8 (b : Book) (o : Order)
    (h : ¬ (o.side = Side.B ∨ o.side = Side.A) ∨ o.price_scaled = 0 ∨ o.size = 0) :
    add_order b o = (b, false) ∧
    (o.action = Action.add → process_order b o = (b, none)) := by
  have hg : o.side = Side.N ∨ o.price_scaled = 0 ∨ o.size = 0 := by
    rcases h with h | h
    · cases hs : o.side with
      | B => exact absurd (Or.inl hs) h
      | A => exact absurd (Or.inr hs) h
      | N => exact Or.inl rfl
    · exact Or.inr h
  have h1 : add_order b o = (b, false) := by
    unfold add_order
    rw [if_pos hg]
  refine ⟨h1, fun ha => ?_⟩
  simp [process_order, ha, h1]

/-- C8 at a concrete input: zero-size Add on a non-empty book. -/
theorem claim_C8_witness :
    add_order
      ({ bid_levels := [(100, PriceLevel.init 100 5 3)], ask_levels := [],
         active_orders := [(3, { side := Side.B, price_scaled := 100, size := 5 })] })
      ({ order_id := 4, price_scaled := 90, size := 0, side := Side.B,
         action := Action.add })
    = ({ bid_levels := [(100, PriceLevel.init 100 5 3)], ask_levels := [],
         active_orders := [(3, { side := Side.B, price_scaled := 100, size := 5 })] }, false) ∧
    (({ order_id := 4, price_scaled := 90, size := 0, side := Side.B,
        action := Action.add } : Order).action = Action.add →
      process_order
        ({ bid_levels := [(100, PriceLevel.init 100 5 3)], ask_levels := [],
           active_orders := [(3, { side := Side.B, price_scaled := 100, size := 5 })] })
        ({ order_id := 4, price_scaled := 90, size := 0, side := Side.B,
           action := Action.add })
      = ({ bid_levels := [(100, PriceLevel.init 100 5 3)], ask_levels := [],
           active_orders := [(3, { side := Side.B, price_scaled := 100, size := 5 })] }, none)) :=
  claim_C8 _ _ (by decide)

/-- A cancel whose id is not live is a no-op returning `false`. -/
theorem cancel_not_found {b : Book} {o : Order}
    (h : ordFind b.active_orders o.order_id = none) :
    cancel_order b o = (b, false) := by
  unfold cancel_order
  rw [h]

/-- After a successful cancel the index entry of the id is gone, and the
rest of the index is untouched. -/
theorem cancel_found_active {b : Book} {o : Order} {info : OrderInfo}
    (h : ordFind b.active_orders o.order_id = some info) :
    ((cancel_order b o).1).active_orders = ordErase b.active_orders o.order_id := by
  obtain ⟨si, pi, szi⟩ := info
  cases si with
  | B =>
    cases hf : mapFind b.bid_levels pi with
    | none => simp [cancel_order, h, hf]
    | some lvl =>
      by_cases hr : (lvl.removeOrder o.order_id szi).2 = true <;>
        simp [cancel_order, h, hf, hr]
  | A =>
    cases hf : mapFind b.ask_levels pi with
    | none => simp [cancel_order, h, hf]
    | some lvl =>
      by_cases hr : (lvl.removeOrder o.order_id szi).2 = true <;>
        simp [cancel_order, h, hf, hr]
  | N => simp [cancel_order, h]

/-- Claim C9: a Cancel of an unknown id returns `false`, emits no
snapshot and changes nothing; hence of two identical Cancels of a live
id the first erases the order from the index and the second is a no-op. -/
theorem claim_C9 (b : Book) (o : Order) :
    (ordFind b.active_orders o.order_id = none →
      cancel_order b o = (b, false) ∧
      (o.action = Action.cancel → process_order b o = (b, none))) ∧
    (∀ info, ordFind b.active_orders o.order_id = some info →
      ordFind ((cancel_order b o).1).active_orders o.order_id = none ∧
      cancel_order ((cancel_order b o).1) o = ((cancel_order b o).1, false)) := by
  constructor
  · intro h
    have h1 := cancel_not_found h
    refine ⟨h1, fun ha => ?_⟩
    simp [process_order, ha, h1]
  · intro info h
    have h2 : ordFind ((cancel_order b o).1).active_orders o.order_id = none := by
      rw [cancel_found_active h]
      exact ordFind_erase_self _ _
    exact ⟨h2, cancel_not_found h2⟩

/-- C9 at a concrete input: a live order cancelled twice. -/
theorem claim_C9_witness :
    (ordFind
        ({ bid_levels := [(100, PriceLevel.init 100 5 3)], ask_levels := [],
           active_orders := [(3, { side := Side.B, price_scaled := 100, size := 5 })] } : Book).active_orders
        ({ order_id := 3, price_scaled := 100, size := 5, side := Side.B,
           action := Action.cancel } : Order).order_id = none →
      cancel_order
        ({ bid_levels := [(100, PriceLevel.init 100 5 3)], ask_levels := [],
           active_orders := [(3, { side := Side.B, price_scaled := 100, size := 5 })] })
        ({ order_id := 3, price_scaled := 100, size := 5, side := Side.B,
           action := Action.cancel })
      = ({ bid_levels := [(100, PriceLevel.init 100 5 3)], ask_levels := [],
           active_orders := [(3, { side := Side.B, price_scaled := 100, size := 5 })] }, false) ∧
      (({ order_id := 3, price_scaled := 100, size := 5, side := Side.B,
          action := Action.cancel } : Order).action = Action.cancel →
        process_order
          ({ bid_levels := [(100, PriceLevel.init 100 5 3)], ask_levels := [],
             active_orders := [(3, { side := Side.B, price_scaled := 100, size := 5 })] })
          ({ order_id := 3, price_scaled := 100, size := 5, side := Side.B,
             action := Action.cancel })
        = ({ bid_levels := [(100, PriceLevel.init 100 5 3)], ask_levels := [],
             active_orders := [(3, { side := Side.B, price_scaled := 100, size := 5 })] }, none))) ∧
    (∀ info, ordFind
        ({ bid_levels := [(100, PriceLevel.init 100 5 3)], ask_levels := [],
           active_orders := [(3, { side := Side.B, price_scaled := 100, size := 5 })] } : Book).active_orders
        ({ order_id := 3, price_scaled := 100, size := 5, side := Side.B,
           action := Action.cancel } : Order).order_id = some info →
      ordFind ((cancel_order
          ({ bid_levels := [(100, PriceLevel.init 100 5 3)], ask_levels := [],
             active_orders := [(3, { side := Side.B, price_scaled := 100, size := 5 })] })
          ({ order_id := 3, price_scaled := 100, size := 5, side := Side.B,
             action := Action.cancel })).1).active_orders
        ({ order_id := 3, price_scaled := 100, size := 5, side := Side.B,
           action := Action.cancel } : Order).order_id = none ∧
      cancel_order
        ((cancel_order
          ({ bid_levels := [(100, PriceLevel.init 100 5 3)], ask_levels := [],
             active_orders := [(3, { side := Side.B, price_scaled := 100, size := 5 })] })
          ({ order_id := 3, price_scaled := 100, size := 5, side := Side.B,
             action := Action.cancel })).1)
        ({ order_id := 3, price_scaled := 100, size := 5, side := Side.B,
           action := Action.cancel })
      = ((cancel_order
          ({ bid_levels := [(100, PriceLevel.init 100 5 3)], ask_levels := [],
             active_orders := [(3, { side := Side.B, price_scaled := 100, size := 5 })] })
          ({ order_id := 3, price_scaled := 100, size := 5, side := Side.B,
             action := Action.cancel })).1, false)) :=
  claim_C9 _ _

/-- Claim C10: `cancel_order` reads nothing from the event but its order
id, so two Cancel events with the same id but different side, price and
size fields produce the same book and the same return value. -/
theorem claim_C10 (b : Book) (o1 o2 : Order) (h : o1.order_id = o2.order_id) :
    cancel_order b o1 = cancel_order b o2 := by
  unfold cancel_order
  rw [h]

/-- C10 at a concrete input: same id, every other event field differing. -/
theorem claim_C10_witness :
    cancel_order
      ({ bid_levels := [(100, PriceLevel.init 100 5 3)], ask_levels := [],
         active_orders := [(3, { side := Side.B, price_scaled := 100, size := 5 })] })
      ({ order_id := 3, price_scaled := 100, size := 5, side := Side.B,
         action := Action.cancel })
    = cancel_order
      ({ bid_levels := [(100, PriceLevel.init 100 5 3)], ask_levels := [],
         active_orders := [(3, { side := Side.B, price_scaled := 100, size := 5 })] })
      ({ order_id := 3, price_scaled := 999, size := 77, side := Side.A,
         action := Action.cancel }) :=
  claim_C10 _ _ _ rfl

/-! ### Driver lemmas and the concrete fixtures -/

/-- Events without a Clear never set the first-clear flag. -/
theorem flag_stays_false (evs : List Order) (st : Recon)
    (hf : st.first_clear_ignored = false)
    (h : ∀ e ∈ evs, e.action ≠ Action.clear) :
    (evs.foldl rstep st).first_clear_ignored = false := by
  induction evs generalizing st with
  | nil => exact hf
  | cons e t ih =>
    have he := h e (List.mem_cons_self _ _)
    have hstep : (rstep st e).first_clear_ignored = false := by
      unfold rstep
      rw [if_neg (fun hc => he hc.2)]
      cases hpr : process_order st.book e with
      | mk b2 r => cases r <;> simp [hf]
    exact ih (rstep st e) hstep (fun e2 h2 => h e2 (List.mem_cons_of_mem _ h2))

/-- With the flag still unset, a Clear event is skipped outright. -/
theorem first_clear_skipped (st : Recon) (ev : Order)
    (hf : st.first_clear_ignored = false) (hc : ev.action = Action.clear) :
    rstep st ev = { st with first_clear_ignored := true } := by
  unfold rstep
  rw [if_pos ⟨hf, hc⟩]

/-- The S1 fixture: `Clear(side N)` then `Add(id 1, Bid, 100.0, 10)`
(`100.0` scaled is `100000000000`). -/
def evsC7 : List Order :=
  [{ order_id := 0, price_scaled := 0, size := 0, side := Side.N, action := Action.clear },
   { order_id := 1, price_scaled := 100000000000, size := 10, side := Side.B,
     action := Action.add }]

/-- Claim C7: the first Clear of any event sequence is skipped (no
snapshot, no book mutation), and the S1 fixture emits exactly one
snapshot, at row index 0, for the Add: `bid_levels[0] = (100, 10, 1)`
(scaled price `100000000000`), all ask slots zero, depth 0. -/
theorem claim_C7 :
    (∀ (pre : List Order) (ev : Order),
      (∀ e ∈ pre, e.action ≠ Action.clear) → ev.action = Action.clear →
      (runEvents (pre ++ [ev])).book = (runEvents pre).book ∧
      (runEvents (pre ++ [ev])).rows = (runEvents pre).rows) ∧
    ((runEvents evsC7).rows.map (fun r => (r.depth, r.bid_levels, r.ask_levels))
      = [((0 : Int),
          ({ price_scaled := 100000000000, size := 10, count := 1 } : MBPLevel)
            :: List.replicate 9 zeroLevel,
          List.replicate 10 zeroLevel)]) := by
  constructor
  · intro pre ev hpre hev
    have hflag : (runEvents pre).first_clear_ignored = false :=
      flag_stays_false pre initRecon rfl hpre
    have happ : runEvents (pre ++ [ev]) = rstep (runEvents pre) ev := by
      unfold runEvents
      rw [List.foldl_append]
      rfl
    rw [happ, first_clear_skipped _ _ hflag hev]
    exact ⟨rfl, rfl⟩
  · decide

/-- C7's universal part applied to a concrete prefix and Clear event. -/
theorem claim_C7_witness :
    (runEvents ([{ order_id := 5, price_scaled := 70, size := 2, side := Side.B,
                   action := Action.add }] ++
        [{ order_id := 0, price_scaled := 0, size := 0, side := Side.N,
           action := Action.clear }])).book
      = (runEvents [{ order_id := 5, price_scaled := 70, size := 2, side := Side.B,
                      action := Action.add }]).book ∧
    (runEvents ([{ order_id := 5, price_scaled := 70, size := 2, side := Side.B,
                   action := Action.add }] ++
        [{ order_id := 0, price_scaled := 0, size := 0, side := Side.N,
           action := Action.clear }])).rows
      = (runEvents [{ order_id := 5, price_scaled := 70, size := 2, side := Side.B,
                      action := Action.add }]).rows :=
  claim_C7.1 _ _ (by decide) rfl

/-- The S5 fixture: `Add(id 7, Bid, 100.0, 3)` then
`Trade(Ask, 100.0, 3)`. -/
def evsC1 : List Order :=
  [{ order_id := 7, price_scaled := 100000000000, size := 3, side := Side.B,
     action := Action.add },
   { order_id := 0, price_scaled := 100000000000, size := 3, side := Side.A,
     action := Action.trade }]

/-- Claim C1 counterexample: on the S5 fixture the Trade does produce a
snapshot with side `A`, but its depth field is `-1`, not `0` as the
claim states: `generate_mbp_snapshot` computes the depth on the
declared (Ask) side, where no level rests at the price. -/
theorem claim_C1_counterexample :
    ((runEvents evsC1).rows.map (fun r => (r.side, r.depth))
      = [(Side.B, (0 : Int)), (Side.A, -1)]) ∧
    ¬ ((runEvents evsC1).rows.map (fun r => (r.side, r.depth))
      = [(Side.B, (0 : Int)), (Side.A, 0)]) := by
  decide

/-- Claim C1 amended: on the S5 fixture the Trade produces a snapshot
whose side is `A` and whose depth is `-1`, the depth lookup being
performed against the declared (Ask) side — which matches the
declared-side lookup and not the effective (Bid) side, where the price
ranks 0. -/
theorem claim_C1_amended :
    ((runEvents evsC1).rows.map (fun r => (r.side, r.depth))
      = [(Side.B, (0 : Int)), (Side.A, -1)]) ∧
    get_price_depth (runEvents evsC1).book Side.A 100000000000 = -1 ∧
    get_price_depth (runEvents evsC1).book Side.B 100000000000 = 0 := by
  decide

/-- Two Adds reusing order id 1 at different prices: `add_order`
overwrites the index entry and leaves the old residency behind. -/
def evsC4cx : List Order :=
  [{ order_id := 1, price_scaled := 100, size := 3, side := Side.B, action := Action.add },
   { order_id := 1, price_scaled := 200, size := 4, side := Side.B, action := Action.add }]

/-- Claim C4 counterexample: after the duplicate-id prefix the converse
invariant direction fails — id 1 is resident in the bid level at 100,
but the order index points it at price 200. -/
theorem claim_C4_counterexample :
    ¬ (∀ (p : Nat) (lvl : PriceLevel),
        mapFind ((runEvents evsC4cx).book).bid_levels p = some lvl →
        ∀ id ∈ lvl.order_ids,
          ∃ info, ordFind ((runEvents evsC4cx).book).active_orders id = some info ∧
            info.side = Side.B ∧ info.price_scaled = p) := by
  intro hAll
  have h1 : mapFind ((runEvents evsC4cx).book).bid_levels 100
      = some { price_scaled := 100, total_size := 3, order_count := 1,
               order_ids := [1] } := by
    decide
  obtain ⟨info, hfind, _, hp⟩ := hAll 100 _ h1 1 (by decide)
  have hv : ordFind ((runEvents evsC4cx).book).active_orders 1
      = some { side := Side.B, price_scaled := 200, size := 4 } := by
    decide
  have heq := Option.some.inj (hv.symm.trans hfind)
  rw [← heq] at hp
  exact absurd hp (by decide)

/-- The pre-state of the C5 counterexample: id 1 already live at bid 100. -/
def bC5cx : Book :=
  (add_order emptyBook
    { order_id := 1, price_scaled := 100, size := 3, side := Side.B,
      action := Action.add }).1

/-- Claim C5 counterexample: on a book where id 1 is already live,
`Add(id 1, B, 200, 5)` followed by `Cancel(id 1, B, 200, 5)` does not
restore the book — the cancel also deletes the pre-existing index entry
of id 1. -/
theorem claim_C5_counterexample :
    ¬ ((cancel_order
        (add_order bC5cx
          { order_id := 1, price_scaled := 200, size := 5, side := Side.B,
            action := Action.add }).1
        { order_id := 1, price_scaled := 200, size := 5, side := Side.B,
          action := Action.cancel }).1
      = bC5cx) := by
  decide

/-- The pre-state of the C6 counterexample: two Adds reusing id 1 at the
same bid price, leaving `order_ids = [1, 1]` at level 100. -/
def bC6cx : Book :=
  (add_order
    (add_order emptyBook
      { order_id := 1, price_scaled := 100, size := 3, side := Side.B,
        action := Action.add }).1
    { order_id := 1, price_scaled := 100, size := 5, side := Side.B,
      action := Action.add }).1

/-- Claim C6 counterexample: id 1 is live, yet cancelling it removes only
one of its two occurrences from the level's id vector — the removal does
not erase the id from its price level, contradicting the claim. -/
theorem claim_C6_counterexample :
    ordFind bC6cx.active_orders 1
      = some { side := Side.B, price_scaled := 100, size := 5 } ∧
    mapFind ((cancel_order bC6cx
        { order_id := 1, price_scaled := 100, size := 5, side := Side.B,
          action := Action.cancel }).1).bid_levels 100
      = some { price_scaled := 100, total_size := 3, order_count := 1,
               order_ids := [1] } ∧
    1 ∈ ({ price_scaled := 100, total_size := 3, order_count := 1,
           order_ids := [1] } : PriceLevel).order_ids := by
  decide

/-! ### Machine-integer arithmetic facts -/

theorem u64_add_sub (t sz : Nat) (h : t < U64) :
    ((t + sz) % U64 + (U64 - sz % U64)) % U64 = t := by
  unfold U64 at *
  omega

theorem u32_add_sub (c : Nat) (h : c < U32) :
    ((c + 1) % U32 + (U32 - 1)) % U32 = c := by
  unfold U32 at *
  omega

theorem u32_sub_one (c : Nat) (h1 : 1 ≤ c) (h : c < U32) :
    (c + (U32 - 1)) % U32 = c - 1 := by
  unfold U32 at *
  omega

theorem u32_one_zero : (1 + (U32 - 1)) % U32 = 0 := by
  unfold U32
  omega

theorem u32_succ (c : Nat) (h : c + 1 < U32) : (c + 1) % U32 = c + 1 := by
  unfold U32 at *
  omega

/-! ### Shapes of the level mutators and of a valid add -/

/-- Removing the only order of a freshly created level empties it. -/
theorem removeOrder_init (p sz id : Nat) :
    (PriceLevel.init p sz id).removeOrder id sz
      = ({ price_scaled := p, total_size := (sz + (U64 - sz % U64)) % U64,
           order_count := 0, order_ids := [] }, true) := by
  simp [PriceLevel.removeOrder, PriceLevel.init, u32_one_zero]

/-- Removing an order that was just pushed onto a well-formed level
undoes the push and does not empty the level. -/
theorem removeOrder_addOrder (lvl : PriceLevel) (id sz : Nat)
    (hids : id ∉ lvl.order_ids)
    (hlen : lvl.order_count = lvl.order_ids.length)
    (hne : lvl.order_ids ≠ [])
    (hc : lvl.order_count < U32) (ht : lvl.total_size < U64) :
    (lvl.addOrder id sz).removeOrder id sz = (lvl, false) := by
  simp only [PriceLevel.addOrder, PriceLevel.removeOrder]
  rw [if_pos (by simp)]
  have he : (lvl.order_ids ++ [id]).erase id = lvl.order_ids := by
    rw [List.erase_append_right _ hids]
    simp
  have ht2 := u64_add_sub lvl.total_size sz ht
  have hc2 := u32_add_sub lvl.order_count hc
  have hlen1 : lvl.order_count ≠ 0 := by
    rw [hlen]
    have := List.length_pos.mpr hne
    omega
  simp only [he, ht2, hc2]
  have h2 : (lvl.order_count == 0) = false := by
    simpa using hlen1
  rw [h2]

/-- The level value `add_order` writes at the event's price on the
touched side. -/
def addLvl (m : LevelMap) (o : Order) : PriceLevel :=
  match mapFind m o.price_scaled with
  | some l =>
    if l.order_count = 0 then PriceLevel.init o.price_scaled o.size o.order_id
    else l.addOrder o.order_id o.size
  | none => PriceLevel.init o.price_scaled o.size o.order_id

/-- The book a valid Bid add produces. -/
theorem add_order_shape_B {b : Book} {o : Order}
    (hs : o.side = Side.B) (hp : o.price_scaled ≠ 0) (hz : o.size ≠ 0) :
    (add_order b o).1 = { b with
      bid_levels := mapInsert bidLt b.bid_levels o.price_scaled (addLvl b.bid_levels o),
      active_orders := ordInsert b.active_orders o.order_id
        { side := o.side, price_scaled := o.price_scaled, size := o.size } } := by
  have hg : ¬ (o.side = Side.N ∨ o.price_scaled = 0 ∨ o.size = 0) := by
    simp [hs, hp, hz]
  unfold add_order
  rw [if_neg hg]
  dsimp only
  rw [hs, if_pos rfl]
  unfold addLvl
  rfl

/-- The book a valid Ask add produces. -/
theorem add_order_shape_A {b : Book} {o : Order}
    (hs : o.side = Side.A) (hp : o.price_scaled ≠ 0) (hz : o.size ≠ 0) :
    (add_order b o).1 = { b with
      ask_levels := mapInsert askLt b.ask_levels o.price_scaled (addLvl b.ask_levels o),
      active_orders := ordInsert b.active_orders o.order_id
        { side := o.side, price_scaled := o.price_scaled, size := o.size } } := by
  have hg : ¬ (o.side = Side.N ∨ o.price_scaled = 0 ∨ o.size = 0) := by
    simp [hs, hp, hz]
  unfold add_order
  rw [if_neg hg]
  dsimp only
  rw [hs]
  rw [if_neg (by simp)]
  unfold addLvl
  rfl

/-! ### Well-formed C++ states -/

/-- A price-level entry as `std::map`/`std::vector`/`uint` invariants
guarantee it: a non-empty, duplicate-free id vector whose length is the
stored (in-range) count, and an in-range total size. -/
def LevelWF (e : Nat × PriceLevel) : Prop :=
  e.2.order_ids ≠ [] ∧ e.2.order_ids.Nodup ∧
  e.2.order_count = e.2.order_ids.length ∧
  e.2.order_ids.length < U32 ∧ e.2.total_size < U64

instance (e : Nat × PriceLevel) : Decidable (LevelWF e) :=
  inferInstanceAs (Decidable (_ ∧ _ ∧ _ ∧ _ ∧ _))

instance (lt : Nat → Nat → Bool) (m : LevelMap) : Decidable (SortedM lt m) :=
  inferInstanceAs (Decidable (List.Pairwise _ m))

/-- A book state that is representable by the C++ containers: both maps
sorted by their comparators and every level well-formed. -/
def WF (b : Book) : Prop :=
  SortedM bidLt b.bid_levels ∧ SortedM askLt b.ask_levels ∧
  (∀ e ∈ b.bid_levels, LevelWF e) ∧ (∀ e ∈ b.ask_levels, LevelWF e)

instance (b : Book) : Decidable (WF b) :=
  inferInstanceAs (Decidable (_ ∧ _ ∧ _ ∧ _))

/-- The order id is not among the residents of the (side, price) level,
if that level exists. -/
def notResidentAt (b : Book) (s : Side) (p id : Nat) : Bool :=
  match mapFind (sideMap b s) p with
  | some lvl => decide (id ∉ lvl.order_ids)
  | none => true

/-- `cancel_order` reads only the event's order id (used to transport a
cancel across events sharing an id). -/
theorem cancel_dep_id (b : Book) (o1 o2 : Order) (h : o1.order_id = o2.order_id) :
    cancel_order b o1 = cancel_order b o2 := by
  unfold cancel_order
  rw [h]

/-- The book a successful cancel of a Bid-side order produces, given the
level lookup and the removal result. -/
theorem cancel_shape_found_B {b : Book} {o : Order} {info : OrderInfo}
    (hfind : ordFind b.active_orders o.order_id = some info)
    (hside : info.side = Side.B)
    {lvl : PriceLevel} (hf : mapFind b.bid_levels info.price_scaled = some lvl)
    {lvl2 : PriceLevel} {em : Bool}
    (hrem : lvl.removeOrder o.order_id info.size = (lvl2, em)) :
    (cancel_order b o).1 =
      if em then
        { b with bid_levels := mapErase b.bid_levels info.price_scaled,
                 active_orders := ordErase b.active_orders o.order_id }
      else
        { b with bid_levels := mapInsert bidLt b.bid_levels info.price_scaled lvl2,
                 active_orders := ordErase b.active_orders o.order_id } := by
  obtain ⟨si, pi, szi⟩ := info
  simp only at hside hf hrem
  subst hside
  unfold cancel_order
  rw [hfind]
  dsimp only
  rw [if_pos rfl, hf]
  dsimp only
  rw [hrem]
  dsimp only
  cases em with
  | true => rw [if_pos rfl, if_pos rfl]
  | false => rw [if_neg (by simp), if_neg (by simp)]

/-- The book a successful cancel of an Ask-side order produces. -/
theorem cancel_shape_found_A {b : Book} {o : Order} {info : OrderInfo}
    (hfind : ordFind b.active_orders o.order_id = some info)
    (hside : info.side = Side.A)
    {lvl : PriceLevel} (hf : mapFind b.ask_levels info.price_scaled = some lvl)
    {lvl2 : PriceLevel} {em : Bool}
    (hrem : lvl.removeOrder o.order_id info.size = (lvl2, em)) :
    (cancel_order b o).1 =
      if em then
        { b with ask_levels := mapErase b.ask_levels info.price_scaled,
                 active_orders := ordErase b.active_orders o.order_id }
      else
        { b with ask_levels := mapInsert askLt b.ask_levels info.price_scaled lvl2,
                 active_orders := ordErase b.active_orders o.order_id } := by
  obtain ⟨si, pi, szi⟩ := info
  simp only at hside hf hrem
  subst hside
  unfold cancel_order
  rw [hfind]
  dsimp only
  rw [if_neg (by simp), if_pos rfl, hf]
  dsimp only
  rw [hrem]
  dsimp only
  cases em with
  | true => rw [if_pos rfl, if_pos rfl]
  | false => rw [if_neg (by simp), if_neg (by simp)]

/-- C5 restore, Bid side. -/
theorem c5_restore_B {b : Book} {o : Order}
    (hWF : WF b) (hfresh : ordFind b.active_orders o.order_id = none)
    (hres : notResidentAt b o.side o.price_scaled o.order_id = true)
    (hs : o.side = Side.B) (hvp : o.price_scaled ≠ 0) (hvz : o.size ≠ 0) :
    (cancel_order (add_order b o).1 o).1 = b := by
  obtain ⟨hsb, hsa, hwb, hwa⟩ := hWF
  rw [add_order_shape_B hs hvp hvz]
  have hOrdApp := @ordInsert_of_find_none b.active_orders o.order_id
    ({ side := o.side, price_scaled := o.price_scaled, size := o.size }) hfresh
  cases hf : mapFind b.bid_levels o.price_scaled with
  | none =>
    have hlv : addLvl b.bid_levels o
        = PriceLevel.init o.price_scaled o.size o.order_id := by
      unfold addLvl
      rw [hf]
    rw [hlv]
    rw [cancel_shape_found_B (ordFind_insert_self _ _ _) hs
      (mapFind_insert_self _ _ _ _)
      (removeOrder_init o.price_scaled o.size o.order_id)]
    rw [if_pos rfl]
    dsimp only
    rw [mapErase_insert _ _ (by rw [← mapFind_eq_none_iff]; exact hf)]
    rw [hOrdApp, ordErase_append _ _ hfresh]
  | some lvl =>
    have hLW : LevelWF (o.price_scaled, lvl) := hwb _ (mapFind_mem hf)
    obtain ⟨hne, hnd, hcnt, hl32, hl64⟩ := hLW
    have hcz : ¬ lvl.order_count = 0 := by
      rw [hcnt]
      have := List.length_pos.mpr hne
      omega
    have hlv : addLvl b.bid_levels o = lvl.addOrder o.order_id o.size := by
      unfold addLvl
      rw [hf]
      dsimp only
      rw [if_neg hcz]
    have hres2 : o.order_id ∉ lvl.order_ids := by
      unfold notResidentAt at hres
      rw [hs] at hres
      simp only [sideMap] at hres
      rw [hf] at hres
      simpa using hres
    rw [hlv]
    rw [cancel_shape_found_B (ordFind_insert_self _ _ _) hs
      (mapFind_insert_self _ _ _ _)
      (removeOrder_addOrder lvl o.order_id o.size hres2 hcnt hne
        (hcnt ▸ hl32) hl64)]
    rw [if_neg (by simp)]
    dsimp only
    rw [mapInsert_insert bidLt (bidLt_irrefl _),
      mapInsert_of_find bidLt_asym hsb hf]
    rw [hOrdApp, ordErase_append _ _ hfresh]

/-- C5 restore, Ask side. -/
theorem c5_restore_A {b : Book} {o : Order}
    (hWF : WF b) (hfresh : ordFind b.active_orders o.order_id = none)
    (hres : notResidentAt b o.side o.price_scaled o.order_id = true)
    (hs : o.side = Side.A) (hvp : o.price_scaled ≠ 0) (hvz : o.size ≠ 0) :
    (cancel_order (add_order b o).1 o).1 = b := by
  obtain ⟨hsb, hsa, hwb, hwa⟩ := hWF
  rw [add_order_shape_A hs hvp hvz]
  have hOrdApp := @ordInsert_of_find_none b.active_orders o.order_id
    ({ side := o.side, price_scaled := o.price_scaled, size := o.size }) hfresh
  cases hf : mapFind b.ask_levels o.price_scaled with
  | none =>
    have hlv : addLvl b.ask_levels o
        = PriceLevel.init o.price_scaled o.size o.order_id := by
      unfold addLvl
      rw [hf]
    rw [hlv]
    rw [cancel_shape_found_A (ordFind_insert_self _ _ _) hs
      (mapFind_insert_self _ _ _ _)
      (removeOrder_init o.price_scaled o.size o.order_id)]
    rw [if_pos rfl]
    dsimp only
    rw [mapErase_insert _ _ (by rw [← mapFind_eq_none_iff]; exact hf)]
    rw [hOrdApp, ordErase_append _ _ hfresh]
  | some lvl =>
    have hLW : LevelWF (o.price_scaled, lvl) := hwa _ (mapFind_mem hf)
    obtain ⟨hne, hnd, hcnt, hl32, hl64⟩ := hLW
    have hcz : ¬ lvl.order_count = 0 := by
      rw [hcnt]
      have := List.length_pos.mpr hne
      omega
    have hlv : addLvl b.ask_levels o = lvl.addOrder o.order_id o.size := by
      unfold addLvl
      rw [hf]
      dsimp only
      rw [if_neg hcz]
    have hres2 : o.order_id ∉ lvl.order_ids := by
      unfold notResidentAt at hres
      rw [hs] at hres
      simp only [sideMap] at hres
      rw [hf] at hres
      simpa using hres
    rw [hlv]
    rw [cancel_shape_found_A (ordFind_insert_self _ _ _) hs
      (mapFind_insert_self _ _ _ _)
      (removeOrder_addOrder lvl o.order_id o.size hres2 hcnt hne
        (hcnt ▸ hl32) hl64)]
    rw [if_neg (by simp)]
    dsimp only
    rw [mapInsert_insert askLt (askLt_irrefl _),
      mapInsert_of_find askLt_asym hsa hf]
    rw [hOrdApp, ordErase_append _ _ hfresh]

/-- Claim C5 amended: on every C++-representable book state in which the
order id is neither live nor resident at the (side, price) level being
touched, an Add followed by a Cancel of the same id restores the book
exactly. -/
theorem claim_C5_amended (b : Book) (o oc : Order)
    (hWF : WF b)
    (hfresh : ordFind b.active_orders o.order_id = none)
    (hres : notResidentAt b o.side o.price_scaled o.order_id = true)
    (hid : oc.order_id = o.order_id) :
    (cancel_order (add_order b o).1 oc).1 = b := by
  rw [cancel_dep_id _ _ _ hid]
  by_cases hv : o.side = Side.N ∨ o.price_scaled = 0 ∨ o.size = 0
  · have h1 : add_order b o = (b, false) := by
      unfold add_order
      rw [if_pos hv]
    rw [h1, cancel_not_found hfresh]
  · push_neg at hv
    obtain ⟨hvN, hvp, hvz⟩ := hv
    cases hs : o.side with
    | N => exact absurd hs hvN
    | B => exact c5_restore_B hWF hfresh hres hs hvp hvz
    | A => exact c5_restore_A hWF hfresh hres hs hvp hvz

/-- C5 amended at a concrete input: an add joining an existing level,
then its cancel. -/
theorem claim_C5_amended_witness :
    (cancel_order
      (add_order
        ({ bid_levels := [(50, { price_scaled := 50, total_size := 2,
                                 order_count := 1, order_ids := [9] })],
           ask_levels := [],
           active_orders := [(9, { side := Side.B, price_scaled := 50, size := 2 })] })
        ({ order_id := 7, price_scaled := 50, size := 3, side := Side.B,
           action := Action.add })).1
      ({ order_id := 7, price_scaled := 50, size := 3, side := Side.B,
         action := Action.cancel })).1
    = ({ bid_levels := [(50, { price_scaled := 50, total_size := 2,
                               order_count := 1, order_ids := [9] })],
         ask_levels := [],
         active_orders := [(9, { side := Side.B, price_scaled := 50, size := 2 })] }) :=
  claim_C5_amended _ _ _ (by decide) (by decide) (by decide) rfl

/-! ### The cancel path in detail (claim C6) -/

/-- The id vector resident at (side, price); empty when no level exists. -/
def residentIds (b : Book) (s : Side) (p : Nat) : List Nat :=
  match mapFind (sideMap b s) p with
  | some lvl => lvl.order_ids
  | none => []

/-- `affects_top_levels` and the spec-side `inTop10` agree as Booleans. -/
theorem affects_eq_inTop10 (b : Book) (s : Side) (p : Nat) :
    affects_top_levels b s p = inTop10 b s p := by
  by_cases hm : p ∈ ((sideMap b s).take MAX_DEPTH).map Prod.fst
  · rw [(affects_top_iff b s p).mpr hm]
    unfold inTop10
    exact (decide_eq_true hm).symm
  · have h2 : affects_top_levels b s p = false := by
      cases hb : affects_top_levels b s p with
      | false => rfl
      | true => exact absurd ((affects_top_iff b s p).mp hb) hm
    rw [h2]
    unfold inTop10
    exact (decide_eq_false hm).symm

/-- A found cancel returns the pre-mutation top-ten test of the stored
(side, price). -/
theorem cancel_ret {b : Book} {o : Order} {info : OrderInfo}
    (hfind : ordFind b.active_orders o.order_id = some info) :
    (cancel_order b o).2 = affects_top_levels b info.side info.price_scaled := by
  obtain ⟨si, pi, szi⟩ := info
  cases si with
  | B =>
    cases hf : mapFind b.bid_levels pi with
    | none => simp [cancel_order, hfind, hf]
    | some lvl =>
      by_cases hr : (lvl.removeOrder o.order_id szi).2 = true <;>
        simp [cancel_order, hfind, hf, hr]
  | A =>
    cases hf : mapFind b.ask_levels pi with
    | none => simp [cancel_order, hfind, hf]
    | some lvl =>
      by_cases hr : (lvl.removeOrder o.order_id szi).2 = true <;>
        simp [cancel_order, hfind, hf, hr]
  | N => simp [cancel_order, hfind]

/-- A found cancel whose stored level is missing touches only the index. -/
theorem cancel_shape_nofind_B {b : Book} {o : Order} {info : OrderInfo}
    (hfind : ordFind b.active_orders o.order_id = some info)
    (hside : info.side = Side.B)
    (hf : mapFind b.bid_levels info.price_scaled = none) :
    (cancel_order b o).1
      = { b with active_orders := ordErase b.active_orders o.order_id } := by
  obtain ⟨si, pi, szi⟩ := info
  simp only at hside hf
  subst hside
  unfold cancel_order
  rw [hfind]
  dsimp only
  rw [if_pos rfl, hf]

/-- Ask-side version of `cancel_shape_nofind_B`. -/
theorem cancel_shape_nofind_A {b : Book} {o : Order} {info : OrderInfo}
    (hfind : ordFind b.active_orders o.order_id = some info)
    (hside : info.side = Side.A)
    (hf : mapFind b.ask_levels info.price_scaled = none) :
    (cancel_order b o).1
      = { b with active_orders := ordErase b.active_orders o.order_id } := by
  obtain ⟨si, pi, szi⟩ := info
  simp only at hside hf
  subst hside
  unfold cancel_order
  rw [hfind]
  dsimp only
  rw [if_neg (by simp), if_pos rfl, hf]

/-- A found cancel whose stored side is `N` touches only the index. -/
theorem cancel_shape_N {b : Book} {o : Order} {info : OrderInfo}
    (hfind : ordFind b.active_orders o.order_id = some info)
    (hside : info.side = Side.N) :
    (cancel_order b o).1
      = { b with active_orders := ordErase b.active_orders o.order_id } := by
  obtain ⟨si, pi, szi⟩ := info
  simp only at hside
  subst hside
  unfold cancel_order
  rw [hfind]
  dsimp only
  rw [if_neg (by simp), if_neg (by simp)]

/-- `remove_order` on a vector not containing the id is the identity. -/
theorem removeOrder_not_mem (lvl : PriceLevel) (id sz : Nat)
    (h : id ∉ lvl.order_ids) : lvl.removeOrder id sz = (lvl, false) := by
  unfold PriceLevel.removeOrder
  rw [if_neg h]

theorem beq_sub_one (n : Nat) (h : 1 ≤ n) : (n - 1 == 0) = decide (n = 1) := by
  by_cases h2 : n = 1
  · subst h2
    rfl
  · have h3 : n - 1 ≠ 0 := by omega
    simp [h2, h3]

/-- `remove_order` on a vector containing the id, with in-range count
equal to the vector length. -/
theorem removeOrder_mem (lvl : PriceLevel) (id sz : Nat)
    (hmem : id ∈ lvl.order_ids)
    (hcnt : lvl.order_count = lvl.order_ids.length)
    (hl32 : lvl.order_ids.length < U32) :
    lvl.removeOrder id sz =
      ({ lvl with order_ids := lvl.order_ids.erase id,
                  total_size := (lvl.total_size + (U64 - sz % U64)) % U64,
                  order_count := lvl.order_ids.length - 1 },
        decide (lvl.order_ids.length = 1)) := by
  unfold PriceLevel.removeOrder
  rw [if_pos hmem]
  have hlen1 : 1 ≤ lvl.order_ids.length :=
    List.length_pos.mpr (List.ne_nil_of_mem hmem)
  have hsub := u32_sub_one lvl.order_ids.length hlen1 hl32
  rw [hcnt, hsub]
  dsimp only
  rw [beq_sub_one _ hlen1]

/-- Claim C6 amended: for a well-formed book and a live order id, the
cancel returns exactly the pre-removal top-ten membership of the stored
(side, price); it erases the id from the index and from its price
level, and the level disappears exactly when the removal leaves its id
vector empty. -/
theorem claim_C6_amended (b : Book) (o : Order) (info : OrderInfo)
    (hWF : WF b)
    (hfind : ordFind b.active_orders o.order_id = some info) :
    ((cancel_order b o).2 = inTop10 b info.side info.price_scaled) ∧
    (ordFind ((cancel_order b o).1).active_orders o.order_id = none) ∧
    (o.order_id ∉ residentIds (cancel_order b o).1 info.side info.price_scaled) ∧
    ((mapFind (sideMap (cancel_order b o).1 info.side) info.price_scaled = none) ↔
      (residentIds b info.side info.price_scaled).erase o.order_id = []) := by
  obtain ⟨hsb, hsa, hwb, hwa⟩ := hWF
  refine ⟨?_, ?_, ?_⟩
  · rw [cancel_ret hfind, affects_eq_inTop10]
  · rw [cancel_found_active hfind]
    exact ordFind_erase_self _ _
  · obtain ⟨si, pi, szi⟩ := info
    cases si with
    | N =>
      rw [cancel_shape_N hfind rfl]
      constructor
      · simp [residentIds, sideMap, mapFind]
      · simp [residentIds, sideMap, mapFind]
    | B =>
      cases hf : mapFind b.bid_levels pi with
      | none =>
        rw [cancel_shape_nofind_B hfind rfl hf]
        constructor
        · simp [residentIds, sideMap, hf]
        · simp [residentIds, sideMap, hf]
      | some lvl =>
        have hLW : LevelWF (pi, lvl) := hwb _ (mapFind_mem hf)
        obtain ⟨hne, hnd, hcnt, hl32, hl64⟩ := hLW
        by_cases hmem : o.order_id ∈ lvl.order_ids
        · have hrem := removeOrder_mem lvl o.order_id szi hmem hcnt hl32
          by_cases hone : lvl.order_ids.length = 1
          · have hrem2 : lvl.removeOrder o.order_id szi =
                ({ lvl with order_ids := lvl.order_ids.erase o.order_id,
                            total_size := (lvl.total_size + (U64 - szi % U64)) % U64,
                            order_count := lvl.order_ids.length - 1 }, true) := by
              rw [hrem]
              simp [hone]
            rw [cancel_shape_found_B hfind rfl hf hrem2, if_pos rfl]
            have hre : mapFind (mapErase b.bid_levels pi) pi = none :=
              mapFind_erase_self _ _
            have hlen0 : (lvl.order_ids.erase o.order_id).length = 0 := by
              rw [List.length_erase_of_mem hmem, hone]
            have he0 : lvl.order_ids.erase o.order_id = [] :=
              List.length_eq_zero.mp hlen0
            constructor
            · simp [residentIds, sideMap, hre]
            · simp [residentIds, sideMap, hre, hf, he0]
          · have hrem2 : lvl.removeOrder o.order_id szi =
                ({ lvl with order_ids := lvl.order_ids.erase o.order_id,
                            total_size := (lvl.total_size + (U64 - szi % U64)) % U64,
                            order_count := lvl.order_ids.length - 1 }, false) := by
              rw [hrem]
              simp [hone]
            rw [cancel_shape_found_B hfind rfl hf hrem2, if_neg (by simp)]
            have hlen2 : lvl.order_ids.erase o.order_id ≠ [] := by
              have h1 := List.length_erase_of_mem hmem
              have h2 : 1 ≤ lvl.order_ids.length :=
                List.length_pos.mpr (List.ne_nil_of_mem hmem)
              intro hnil
              rw [hnil] at h1
              simp only [List.length_nil] at h1
              omega
            constructor
            · simp only [residentIds, sideMap, mapFind_insert_self]
              exact List.Nodup.not_mem_erase hnd
            · apply iff_of_false
              · simp [sideMap, mapFind_insert_self]
              · simp only [residentIds, sideMap, hf]
                exact hlen2
        · rw [cancel_shape_found_B hfind rfl hf
            (removeOrder_not_mem lvl _ szi hmem), if_neg (by simp)]
          constructor
          · simp only [residentIds, sideMap, mapFind_insert_self]
            exact hmem
          · apply iff_of_false
            · simp [sideMap, mapFind_insert_self]
            · simp only [residentIds, sideMap, hf]
              rw [List.erase_of_not_mem hmem]
              exact hne
    | A =>
      cases hf : mapFind b.ask_levels pi with
      | none =>
        rw [cancel_shape_nofind_A hfind rfl hf]
        constructor
        · simp [residentIds, sideMap, hf]
        · simp [residentIds, sideMap, hf]
      | some lvl =>
        have hLW : LevelWF (pi, lvl) := hwa _ (mapFind_mem hf)
        obtain ⟨hne, hnd, hcnt, hl32, hl64⟩ := hLW
        by_cases hmem : o.order_id ∈ lvl.order_ids
        · have hrem := removeOrder_mem lvl o.order_id szi hmem hcnt hl32
          by_cases hone : lvl.order_ids.length = 1
          · have hrem2 : lvl.removeOrder o.order_id szi =
                ({ lvl with order_ids := lvl.order_ids.erase o.order_id,
                            total_size := (lvl.total_size + (U64 - szi % U64)) % U64,
                            order_count := lvl.order_ids.length - 1 }, true) := by
              rw [hrem]
              simp [hone]
            rw [cancel_shape_found_A hfind rfl hf hrem2, if_pos rfl]
            have hre : mapFind (mapErase b.ask_levels pi) pi = none :=
              mapFind_erase_self _ _
            have hlen0 : (lvl.order_ids.erase o.order_id).length = 0 := by
              rw [List.length_erase_of_mem hmem, hone]
            have he0 : lvl.order_ids.erase o.order_id = [] :=
              List.length_eq_zero.mp hlen0
            constructor
            · simp [residentIds, sideMap, hre]
            · simp [residentIds, sideMap, hre, hf, he0]
          · have hrem2 : lvl.removeOrder o.order_id szi =
                ({ lvl with order_ids := lvl.order_ids.erase o.order_id,
                            total_size := (lvl.total_size + (U64 - szi % U64)) % U64,
                            order_count := lvl.order_ids.length - 1 }, false) := by
              rw [hrem]
              simp [hone]
            rw [cancel_shape_found_A hfind rfl hf hrem2, if_neg (by simp)]
            have hlen2 : lvl.order_ids.erase o.order_id ≠ [] := by
              have h1 := List.length_erase_of_mem hmem
              have h2 : 1 ≤ lvl.order_ids.length :=
                List.length_pos.mpr (List.ne_nil_of_mem hmem)
              intro hnil
              rw [hnil] at h1
              simp only [List.length_nil] at h1
              omega
            constructor
            · simp only [residentIds, sideMap, mapFind_insert_self]
              exact List.Nodup.not_mem_erase hnd
            · apply iff_of_false
              · simp [sideMap, mapFind_insert_self]
              · simp only [residentIds, sideMap, hf]
                exact hlen2
        · rw [cancel_shape_found_A hfind rfl hf
            (removeOrder_not_mem lvl _ szi hmem), if_neg (by simp)]
          constructor
          · simp only [residentIds, sideMap, mapFind_insert_self]
            exact hmem
          · apply iff_of_false
            · simp [sideMap, mapFind_insert_self]
            · simp only [residentIds, sideMap, hf]
              rw [List.erase_of_not_mem hmem]
              exact hne

/-- C6 amended at a concrete input: cancelling the single resident of a
one-level book. -/
theorem claim_C6_amended_witness :
    ((cancel_order
        ({ bid_levels := [(50, { price_scaled := 50, total_size := 2,
                                 order_count := 1, order_ids := [9] })],
           ask_levels := [],
           active_orders := [(9, { side := Side.B, price_scaled := 50, size := 2 })] })
        ({ order_id := 9, price_scaled := 50, size := 2, side := Side.B,
           action := Action.cancel })).2
      = inTop10
          ({ bid_levels := [(50, { price_scaled := 50, total_size := 2,
                                   order_count := 1, order_ids := [9] })],
             ask_levels := [],
             active_orders := [(9, { side := Side.B, price_scaled := 50, size := 2 })] })
          ({ side := Side.B, price_scaled := 50, size := 2 } : OrderInfo).side
          ({ side := Side.B, price_scaled := 50, size := 2 } : OrderInfo).price_scaled) ∧
    (ordFind ((cancel_order
        ({ bid_levels := [(50, { price_scaled := 50, total_size := 2,
                                 order_count := 1, order_ids := [9] })],
           ask_levels := [],
           active_orders := [(9, { side := Side.B, price_scaled := 50, size := 2 })] })
        ({ order_id := 9, price_scaled := 50, size := 2, side := Side.B,
           action := Action.cancel })).1).active_orders
        ({ order_id := 9, price_scaled := 50, size := 2, side := Side.B,
           action := Action.cancel } : Order).order_id = none) ∧
    (({ order_id := 9, price_scaled := 50, size := 2, side := Side.B,
        action := Action.cancel } : Order).order_id ∉
      residentIds (cancel_order
        ({ bid_levels := [(50, { price_scaled := 50, total_size := 2,
                                 order_count := 1, order_ids := [9] })],
           ask_levels := [],
           active_orders := [(9, { side := Side.B, price_scaled := 50, size := 2 })] })
        ({ order_id := 9, price_scaled := 50, size := 2, side := Side.B,
           action := Action.cancel })).1
        ({ side := Side.B, price_scaled := 50, size := 2 } : OrderInfo).side
        ({ side := Side.B, price_scaled := 50, size := 2 } : OrderInfo).price_scaled) ∧
    ((mapFind (sideMap (cancel_order
        ({ bid_levels := [(50, { price_scaled := 50, total_size := 2,
                                 order_count := 1, order_ids := [9] })],
           ask_levels := [],
           active_orders := [(9, { side := Side.B, price_scaled := 50, size := 2 })] })
        ({ order_id := 9, price_scaled := 50, size := 2, side := Side.B,
           action := Action.cancel })).1
          ({ side := Side.B, price_scaled := 50, size := 2 } : OrderInfo).side)
        ({ side := Side.B, price_scaled := 50, size := 2 } : OrderInfo).price_scaled = none) ↔
      ((residentIds
          ({ bid_levels := [(50, { price_scaled := 50, total_size := 2,
                                   order_count := 1, order_ids := [9] })],
             ask_levels := [],
             active_orders := [(9, { side := Side.B, price_scaled := 50, size := 2 })] })
          ({ side := Side.B, price_scaled := 50, size := 2 } : OrderInfo).side
          ({ side := Side.B, price_scaled := 50, size := 2 } : OrderInfo).price_scaled).erase
        ({ order_id := 9, price_scaled := 50, size := 2, side := Side.B,
           action := Action.cancel } : Order).order_id = [])) :=
  claim_C6_amended _ _ _ (by decide) (by decide)

/-! ### The book invariant (claim C4) -/

/-- The inductive invariant of the reachable (duplicate-free) engine
states: sorted representation, forward direction (every index entry
names an existing level containing the id), and per-level
well-formedness with the converse direction.  `k` bounds every level's
population (at most one resident per processed event). -/
structure Inv (k : Nat) (b : Book) : Prop where
  sb : SortedM bidLt b.bid_levels
  sa : SortedM askLt b.ask_levels
  fwd : ∀ id info, ordFind b.active_orders id = some info →
    info.side ≠ Side.N ∧
    ∃ lvl, mapFind (sideMap b info.side) info.price_scaled = some lvl ∧
      id ∈ lvl.order_ids
  lvl : ∀ s, s ≠ Side.N → ∀ p l, mapFind (sideMap b s) p = some l →
    l.order_ids ≠ [] ∧ l.order_ids.Nodup ∧
    l.order_count = l.order_ids.length ∧ l.order_ids.length ≤ k ∧
    ∀ id ∈ l.order_ids, ∃ info, ordFind b.active_orders id = some info ∧
      info.side = s ∧ info.price_scaled = p

theorem inv_mono {k k2 : Nat} {b : Book} (hk : k ≤ k2) (h : Inv k b) : Inv k2 b := by
  refine ⟨h.sb, h.sa, h.fwd, ?_⟩
  intro s hs p l hf
  obtain ⟨h1, h2, h3, h4, h5⟩ := h.lvl s hs p l hf
  exact ⟨h1, h2, h3, le_trans h4 hk, h5⟩

theorem inv_empty (k : Nat) : Inv k emptyBook := by
  refine ⟨?_, ?_, ?_, ?_⟩
  · exact List.Pairwise.nil
  · exact List.Pairwise.nil
  · intro id info h
    simp [emptyBook, ordFind] at h
  · intro s hs p l hf
    cases s <;> simp [emptyBook, sideMap, mapFind] at hf

theorem nodup_append_one {l : List Nat} {a : Nat} (h1 : l.Nodup) (h2 : a ∉ l) :
    (l ++ [a]).Nodup := by
  simp only [List.nodup_append, List.nodup_cons, List.not_mem_nil,
    not_false_iff, List.nodup_nil, and_true, true_and]
  refine ⟨h1, ?_⟩
  intro x hx hx2
  rw [List.mem_singleton] at hx2
  subst hx2
  exact h2 hx

/-- An id that is not live is nowhere resident (contrapositive of the
converse invariant direction). -/
theorem inv_not_resident {k : Nat} {b : Book} (hInv : Inv k b) {id : Nat}
    (hfresh : ordFind b.active_orders id = none) :
    ∀ s, s ≠ Side.N → ∀ p l, mapFind (sideMap b s) p = some l →
      id ∉ l.order_ids := by
  intro s hs p l hf hmem
  obtain ⟨info2, hfind2, _, _⟩ := (hInv.lvl s hs p l hf).2.2.2.2 _ hmem
  rw [hfresh] at hfind2
  cases hfind2

/-- `add_order` with a fresh id preserves the invariant, growing the
population bound by one. -/
theorem inv_add {k : Nat} {b : Book} {o : Order} (hInv : Inv k b)
    (hk : k + 1 < U32)
    (hfresh : ordFind b.active_orders o.order_id = none) :
    Inv (k + 1) (add_order b o).1 := by
  by_cases hv : o.side = Side.N ∨ o.price_scaled = 0 ∨ o.size = 0
  · have h1 : add_order b o = (b, false) := by
      unfold add_order
      rw [if_pos hv]
    rw [h1]
    exact inv_mono (Nat.le_succ k) hInv
  · push_neg at hv
    obtain ⟨hvN, hvp, hvz⟩ := hv
    have hnres := inv_not_resident hInv hfresh
    cases hs : o.side with
    | N => exact absurd hs hvN
    | B =>
      rw [add_order_shape_B hs hvp hvz]
      set L := addLvl b.bid_levels o with hLdef
      have hL : L.order_ids = residentIds b Side.B o.price_scaled ++ [o.order_id] ∧
          L.order_count = (residentIds b Side.B o.price_scaled).length + 1 := by
        rw [hLdef]
        unfold addLvl residentIds
        simp only [sideMap]
        cases hf : mapFind b.bid_levels o.price_scaled with
        | none => simp [PriceLevel.init]
        | some lvl =>
          obtain ⟨hne, hnd, hcnt, hlen, hconv⟩ :=
            hInv.lvl Side.B (by simp) o.price_scaled lvl hf
          have hcz : ¬ lvl.order_count = 0 := by
            rw [hcnt]
            have := List.length_pos.mpr hne
            omega
          dsimp only
          rw [if_neg hcz]
          refine ⟨rfl, ?_⟩
          show (lvl.order_count + 1) % U32 = lvl.order_ids.length + 1
          rw [hcnt]
          exact u32_succ _ (by omega)
      have hresid : ∀ {l2 : PriceLevel},
          mapFind b.bid_levels o.price_scaled = some l2 →
          residentIds b Side.B o.price_scaled = l2.order_ids := by
        intro l2 hf2
        unfold residentIds
        simp only [sideMap]
        rw [hf2]
      have hresfresh : o.order_id ∉ residentIds b Side.B o.price_scaled := by
        unfold residentIds
        simp only [sideMap]
        cases hf : mapFind b.bid_levels o.price_scaled with
        | none => simp
        | some lvl => exact hnres Side.B (by simp) o.price_scaled lvl hf
      have hresnodup : (residentIds b Side.B o.price_scaled).Nodup := by
        unfold residentIds
        simp only [sideMap]
        cases hf : mapFind b.bid_levels o.price_scaled with
        | none => simp
        | some lvl => exact (hInv.lvl Side.B (by simp) o.price_scaled lvl hf).2.1
      have hreslen : (residentIds b Side.B o.price_scaled).length ≤ k := by
        unfold residentIds
        simp only [sideMap]
        cases hf : mapFind b.bid_levels o.price_scaled with
        | none => simp
        | some lvl => exact (hInv.lvl Side.B (by simp) o.price_scaled lvl hf).2.2.2.1
      have hresconv : ∀ id2 ∈ residentIds b Side.B o.price_scaled,
          ∃ info, ordFind b.active_orders id2 = some info ∧
            info.side = Side.B ∧ info.price_scaled = o.price_scaled := by
        unfold residentIds
        simp only [sideMap]
        cases hf : mapFind b.bid_levels o.price_scaled with
        | none => simp
        | some lvl => exact (hInv.lvl Side.B (by simp) o.price_scaled lvl hf).2.2.2.2
      refine ⟨?_, hInv.sa, ?_, ?_⟩
      · exact sortedM_mapInsert bidLt_trans bidLt_total _ hInv.sb
      · -- forward direction
        intro id2 info2 hfind2
        by_cases hid2 : id2 = o.order_id
        · subst hid2
          rw [ordFind_insert_self] at hfind2
          cases hfind2
          dsimp only
          rw [hs]
          refine ⟨by simp, L, ?_, ?_⟩
          · exact mapFind_insert_self _ _ _ _
          · rw [hL.1]
            simp
        · rw [ordFind_insert_ne _ _ _ _ hid2] at hfind2
          obtain ⟨hsN2, lvl2, hfl2, hmem2⟩ := hInv.fwd id2 info2 hfind2
          refine ⟨hsN2, ?_⟩
          cases hside2 : info2.side with
          | N => exact absurd hside2 hsN2
          | A =>
            rw [hside2] at hfl2
            exact ⟨lvl2, hfl2, hmem2⟩
          | B =>
            rw [hside2] at hfl2
            by_cases hp2 : info2.price_scaled = o.price_scaled
            · rw [hp2] at hfl2
              refine ⟨L, ?_, ?_⟩
              · rw [hp2]
                exact mapFind_insert_self _ _ _ _
              · rw [hL.1]
                exact List.mem_append_left _ ((hresid hfl2).symm ▸ hmem2)
            · refine ⟨lvl2, ?_, hmem2⟩
              show mapFind (mapInsert bidLt b.bid_levels o.price_scaled L)
                info2.price_scaled = some lvl2
              rw [mapFind_insert_ne _ _ _ _ _ hp2]
              exact hfl2
      · -- per-level clauses
        intro s2 hs2 p2 l2 hfl2
        cases s2 with
        | N => exact absurd rfl hs2
        | A =>
          obtain ⟨h1, h2, h3, h4, h5⟩ := hInv.lvl Side.A (by simp) p2 l2 hfl2
          refine ⟨h1, h2, h3, le_trans h4 (Nat.le_succ k), ?_⟩
          intro id2 hmem2
          obtain ⟨info2, hfind2, hside2, hp2⟩ := h5 id2 hmem2
          have hid2 : id2 ≠ o.order_id := by
            intro heq
            rw [heq, hfresh] at hfind2
            cases hfind2
          refine ⟨info2, ?_, hside2, hp2⟩
          rw [ordFind_insert_ne _ _ _ _ hid2]
          exact hfind2
        | B =>
          by_cases hp2 : p2 = o.price_scaled
          · subst hp2
            have hLfind : mapFind (mapInsert bidLt b.bid_levels o.price_scaled L)
                o.price_scaled = some L := mapFind_insert_self _ _ _ _
            have hl2L : l2 = L := Option.some.inj ((hLfind.symm.trans hfl2).symm)
            subst hl2L
            refine ⟨?_, ?_, ?_, ?_, ?_⟩
            · rw [hL.1]
              simp
            · rw [hL.1]
              exact nodup_append_one hresnodup hresfresh
            · rw [hL.1, hL.2, List.length_append]
              simp
            · rw [hL.1, List.length_append]
              simp only [List.length_singleton]
              omega
            · intro id2 hmem2
              rw [hL.1] at hmem2
              rcases List.mem_append.mp hmem2 with hm | hm
              · obtain ⟨info2, hfind2, hside2, hpr2⟩ := hresconv id2 hm
                have hid2 : id2 ≠ o.order_id := by
                  intro heq
                  rw [heq, hfresh] at hfind2
                  cases hfind2
                refine ⟨info2, ?_, hside2, hpr2⟩
                rw [ordFind_insert_ne _ _ _ _ hid2]
                exact hfind2
              · rw [List.mem_singleton] at hm
                subst hm
                refine ⟨{ side := o.side, price_scaled := o.price_scaled,
                          size := o.size }, ?_, by simp [hs], rfl⟩
                exact ordFind_insert_self _ _ _
          · have hfl2b : mapFind b.bid_levels p2 = some l2 := by
              have h6 : mapFind (mapInsert bidLt b.bid_levels o.price_scaled L) p2
                  = mapFind b.bid_levels p2 := mapFind_insert_ne _ _ _ _ _ hp2
              rw [← h6]
              exact hfl2
            obtain ⟨h1, h2, h3, h4, h5⟩ := hInv.lvl Side.B (by simp) p2 l2 hfl2b
            refine ⟨h1, h2, h3, le_trans h4 (Nat.le_succ k), ?_⟩
            intro id2 hmem2
            obtain ⟨info2, hfind2, hside2, hpr2⟩ := h5 id2 hmem2
            have hid2 : id2 ≠ o.order_id := by
              intro heq
              rw [heq, hfresh] at hfind2
              cases hfind2
            refine ⟨info2, ?_, hside2, hpr2⟩
            rw [ordFind_insert_ne _ _ _ _ hid2]
            exact hfind2
    | A =>
      rw [add_order_shape_A hs hvp hvz]
      set L := addLvl b.ask_levels o with hLdef
      have hL : L.order_ids = residentIds b Side.A o.price_scaled ++ [o.order_id] ∧
          L.order_count = (residentIds b Side.A o.price_scaled).length + 1 := by
        rw [hLdef]
        unfold addLvl residentIds
        simp only [sideMap]
        cases hf : mapFind b.ask_levels o.price_scaled with
        | none => simp [PriceLevel.init]
        | some lvl =>
          obtain ⟨hne, hnd, hcnt, hlen, hconv⟩ :=
            hInv.lvl Side.A (by simp) o.price_scaled lvl hf
          have hcz : ¬ lvl.order_count = 0 := by
            rw [hcnt]
            have := List.length_pos.mpr hne
            omega
          dsimp only
          rw [if_neg hcz]
          refine ⟨rfl, ?_⟩
          show (lvl.order_count + 1) % U32 = lvl.order_ids.length + 1
          rw [hcnt]
          exact u32_succ _ (by omega)
      have hresid : ∀ {l2 : PriceLevel},
          mapFind b.ask_levels o.price_scaled = some l2 →
          residentIds b Side.A o.price_scaled = l2.order_ids := by
        intro l2 hf2
        unfold residentIds
        simp only [sideMap]
        rw [hf2]
      have hresfresh : o.order_id ∉ residentIds b Side.A o.price_scaled := by
        unfold residentIds
        simp only [sideMap]
        cases hf : mapFind b.ask_levels o.price_scaled with
        | none => simp
        | some lvl => exact hnres Side.A (by simp) o.price_scaled lvl hf
      have hresnodup : (residentIds b Side.A o.price_scaled).Nodup := by
        unfold residentIds
        simp only [sideMap]
        cases hf : mapFind b.ask_levels o.price_scaled with
        | none => simp
        | some lvl => exact (hInv.lvl Side.A (by simp) o.price_scaled lvl hf).2.1
      have hreslen : (residentIds b Side.A o.price_scaled).length ≤ k := by
        unfold residentIds
        simp only [sideMap]
        cases hf : mapFind b.ask_levels o.price_scaled with
        | none => simp
        | some lvl => exact (hInv.lvl Side.A (by simp) o.price_scaled lvl hf).2.2.2.1
      have hresconv : ∀ id2 ∈ residentIds b Side.A o.price_scaled,
          ∃ info, ordFind b.active_orders id2 = some info ∧
            info.side = Side.A ∧ info.price_scaled = o.price_scaled := by
        unfold residentIds
        simp only [sideMap]
        cases hf : mapFind b.ask_levels o.price_scaled with
        | none => simp
        | some lvl => exact (hInv.lvl Side.A (by simp) o.price_scaled lvl hf).2.2.2.2
      refine ⟨hInv.sb, ?_, ?_, ?_⟩
      · exact sortedM_mapInsert askLt_trans askLt_total _ hInv.sa
      · intro id2 info2 hfind2
        by_cases hid2 : id2 = o.order_id
        · subst hid2
          rw [ordFind_insert_self] at hfind2
          cases hfind2
          dsimp only
          rw [hs]
          refine ⟨by simp, L, ?_, ?_⟩
          · exact mapFind_insert_self _ _ _ _
          · rw [hL.1]
            simp
        · rw [ordFind_insert_ne _ _ _ _ hid2] at hfind2
          obtain ⟨hsN2, lvl2, hfl2, hmem2⟩ := hInv.fwd id2 info2 hfind2
          refine ⟨hsN2, ?_⟩
          cases hside2 : info2.side with
          | N => exact absurd hside2 hsN2
          | B =>
            rw [hside2] at hfl2
            exact ⟨lvl2, hfl2, hmem2⟩
          | A =>
            rw [hside2] at hfl2
            by_cases hp2 : info2.price_scaled = o.price_scaled
            · rw [hp2] at hfl2
              refine ⟨L, ?_, ?_⟩
              · rw [hp2]
                exact mapFind_insert_self _ _ _ _
              · rw [hL.1]
                exact List.mem_append_left _ ((hresid hfl2).symm ▸ hmem2)
            · refine ⟨lvl2, ?_, hmem2⟩
              show mapFind (mapInsert askLt b.ask_levels o.price_scaled L)
                info2.price_scaled = some lvl2
              rw [mapFind_insert_ne _ _ _ _ _ hp2]
              exact hfl2
      · intro s2 hs2 p2 l2 hfl2
        cases s2 with
        | N => exact absurd rfl hs2
        | B =>
          obtain ⟨h1, h2, h3, h4, h5⟩ := hInv.lvl Side.B (by simp) p2 l2 hfl2
          refine ⟨h1, h2, h3, le_trans h4 (Nat.le_succ k), ?_⟩
          intro id2 hmem2
          obtain ⟨info2, hfind2, hside2, hp2⟩ := h5 id2 hmem2
          have hid2 : id2 ≠ o.order_id := by
            intro heq
            rw [heq, hfresh] at hfind2
            cases hfind2
          refine ⟨info2, ?_, hside2, hp2⟩
          rw [ordFind_insert_ne _ _ _ _ hid2]
          exact hfind2
        | A =>
          by_cases hp2 : p2 = o.price_scaled
          · subst hp2
            have hLfind : mapFind (mapInsert askLt b.ask_levels o.price_scaled L)
                o.price_scaled = some L := mapFind_insert_self _ _ _ _
            have hl2L : l2 = L := Option.some.inj ((hLfind.symm.trans hfl2).symm)
            subst hl2L
            refine ⟨?_, ?_, ?_, ?_, ?_⟩
            · rw [hL.1]
              simp
            · rw [hL.1]
              exact nodup_append_one hresnodup hresfresh
            · rw [hL.1, hL.2, List.length_append]
              simp
            · rw [hL.1, List.length_append]
              simp only [List.length_singleton]
              omega
            · intro id2 hmem2
              rw [hL.1] at hmem2
              rcases List.mem_append.mp hmem2 with hm | hm
              · obtain ⟨info2, hfind2, hside2, hpr2⟩ := hresconv id2 hm
                have hid2 : id2 ≠ o.order_id := by
                  intro heq
                  rw [heq, hfresh] at hfind2
                  cases hfind2
                refine ⟨info2, ?_, hside2, hpr2⟩
                rw [ordFind_insert_ne _ _ _ _ hid2]
                exact hfind2
              · rw [List.mem_singleton] at hm
                subst hm
                refine ⟨{ side := o.side, price_scaled := o.price_scaled,
                          size := o.size }, ?_, by simp [hs], rfl⟩
                exact ordFind_insert_self _ _ _
          · have hfl2b : mapFind b.ask_levels p2 = some l2 := by
              have h6 : mapFind (mapInsert askLt b.ask_levels o.price_scaled L) p2
                  = mapFind b.ask_levels p2 := mapFind_insert_ne _ _ _ _ _ hp2
              rw [← h6]
              exact hfl2
            obtain ⟨h1, h2, h3, h4, h5⟩ := hInv.lvl Side.A (by simp) p2 l2 hfl2b
            refine ⟨h1, h2, h3, le_trans h4 (Nat.le_succ k), ?_⟩
            intro id2 hmem2
            obtain ⟨info2, hfind2, hside2, hpr2⟩ := h5 id2 hmem2
            have hid2 : id2 ≠ o.order_id := by
              intro heq
              rw [heq, hfresh] at hfind2
              cases hfind2
            refine ⟨info2, ?_, hside2, hpr2⟩
            rw [ordFind_insert_ne _ _ _ _ hid2]
            exact hfind2

/-- `cancel_order` preserves the invariant at the same bound. -/
theorem inv_cancel {k : Nat} {b : Book} {o : Order} (hInv : Inv k b)
    (hk : k < U32) : Inv k (cancel_order b o).1 := by
  cases hfind : ordFind b.active_orders o.order_id with
  | none =>
    rw [cancel_not_found hfind]
    exact hInv
  | some info =>
    obtain ⟨hsN, lvl, hfl, hmem⟩ := hInv.fwd o.order_id info hfind
    have hdet : ∀ {id2 : Nat} {info2 : OrderInfo},
        ordFind b.active_orders id2 = some info2 → id2 = o.order_id →
        info2 = info := by
      intro id2 info2 h heq
      subst heq
      exact Option.some.inj (h.symm.trans hfind)
    cases hside : info.side with
    | N => exact absurd hside hsN
    | B =>
      rw [hside] at hfl
      obtain ⟨hne, hnd, hcnt, hlen, hconv⟩ :=
        hInv.lvl Side.B (by simp) info.price_scaled lvl hfl
      have hrem := removeOrder_mem lvl o.order_id info.size hmem hcnt
        (lt_of_le_of_lt hlen hk)
      by_cases hone : lvl.order_ids.length = 1
      · have hids : lvl.order_ids = [o.order_id] := by
          obtain ⟨a, ha⟩ := List.length_eq_one.mp hone
          rw [ha] at hmem ⊢
          rw [List.mem_singleton] at hmem
          rw [hmem]
        have hrem2 : lvl.removeOrder o.order_id info.size =
            ({ lvl with order_ids := lvl.order_ids.erase o.order_id,
                        total_size := (lvl.total_size + (U64 - info.size % U64)) % U64,
                        order_count := lvl.order_ids.length - 1 }, true) := by
          rw [hrem]
          simp [hone]
        rw [cancel_shape_found_B hfind hside hfl hrem2, if_pos rfl]
        refine ⟨sortedM_mapErase hInv.sb, hInv.sa, ?_, ?_⟩
        · intro id2 info2 hfind2
          have hid2 : id2 ≠ o.order_id := by
            intro heq
            rw [heq, ordFind_erase_self] at hfind2
            cases hfind2
          rw [ordFind_erase_ne _ _ _ hid2] at hfind2
          obtain ⟨hsN2, lvl2, hfl2, hmem2⟩ := hInv.fwd id2 info2 hfind2
          refine ⟨hsN2, ?_⟩
          cases hside2 : info2.side with
          | N => exact absurd hside2 hsN2
          | A =>
            rw [hside2] at hfl2
            exact ⟨lvl2, hfl2, hmem2⟩
          | B =>
            rw [hside2] at hfl2
            by_cases hp2 : info2.price_scaled = info.price_scaled
            · exfalso
              rw [hp2] at hfl2
              have hl2 : lvl2 = lvl := Option.some.inj (hfl2.symm.trans hfl)
              rw [hl2, hids, List.mem_singleton] at hmem2
              exact hid2 hmem2
            · refine ⟨lvl2, ?_, hmem2⟩
              show mapFind (mapErase b.bid_levels info.price_scaled)
                info2.price_scaled = some lvl2
              rw [mapFind_erase_ne _ _ _ hp2]
              exact hfl2
        · intro s2 hs2 p2 l2 hfl2
          cases s2 with
          | N => exact absurd rfl hs2
          | A =>
            obtain ⟨h1, h2, h3, h4, h5⟩ := hInv.lvl Side.A (by simp) p2 l2 hfl2
            refine ⟨h1, h2, h3, h4, ?_⟩
            intro id2 hmem2
            obtain ⟨info2, hfind2, hside2, hpr2⟩ := h5 id2 hmem2
            have hid2 : id2 ≠ o.order_id := by
              intro heq
              have h7 := hdet hfind2 heq
              rw [h7, hside] at hside2
              cases hside2
            refine ⟨info2, ?_, hside2, hpr2⟩
            rw [ordFind_erase_ne _ _ _ hid2]
            exact hfind2
          | B =>
            have hp2 : p2 ≠ info.price_scaled := by
              intro heq
              have h7 : mapFind (mapErase b.bid_levels info.price_scaled) p2
                  = none := by
                rw [heq]
                exact mapFind_erase_self _ _
              rw [show (sideMap { b with
                    bid_levels := mapErase b.bid_levels info.price_scaled,
                    active_orders := ordErase b.active_orders o.order_id }
                  Side.B) = mapErase b.bid_levels info.price_scaled from rfl,
                h7] at hfl2
              cases hfl2
            have hfl2b : mapFind b.bid_levels p2 = some l2 := by
              have h6 : mapFind (mapErase b.bid_levels info.price_scaled) p2
                  = mapFind b.bid_levels p2 := mapFind_erase_ne _ _ _ hp2
              rw [← h6]
              exact hfl2
            obtain ⟨h1, h2, h3, h4, h5⟩ := hInv.lvl Side.B (by simp) p2 l2 hfl2b
            refine ⟨h1, h2, h3, h4, ?_⟩
            intro id2 hmem2
            obtain ⟨info2, hfind2, hside2, hpr2⟩ := h5 id2 hmem2
            have hid2 : id2 ≠ o.order_id := by
              intro heq
              have h7 := hdet hfind2 heq
              rw [h7] at hpr2
              exact hp2 hpr2.symm
            refine ⟨info2, ?_, hside2, hpr2⟩
            rw [ordFind_erase_ne _ _ _ hid2]
            exact hfind2
      · have hrem2 : lvl.removeOrder o.order_id info.size =
            ({ lvl with order_ids := lvl.order_ids.erase o.order_id,
                        total_size := (lvl.total_size + (U64 - info.size % U64)) % U64,
                        order_count := lvl.order_ids.length - 1 }, false) := by
          rw [hrem]
          simp [hone]
        rw [cancel_shape_found_B hfind hside hfl hrem2, if_neg (by simp)]
        have hlen1 : 1 ≤ lvl.order_ids.length :=
          List.length_pos.mpr (List.ne_nil_of_mem hmem)
        have herlen : (lvl.order_ids.erase o.order_id).length
            = lvl.order_ids.length - 1 := List.length_erase_of_mem hmem
        refine ⟨sortedM_mapInsert bidLt_trans bidLt_total _ hInv.sb, hInv.sa, ?_, ?_⟩
        · intro id2 info2 hfind2
          have hid2 : id2 ≠ o.order_id := by
            intro heq
            rw [heq, ordFind_erase_self] at hfind2
            cases hfind2
          rw [ordFind_erase_ne _ _ _ hid2] at hfind2
          obtain ⟨hsN2, lvl2, hfl2, hmem2⟩ := hInv.fwd id2 info2 hfind2
          refine ⟨hsN2, ?_⟩
          cases hside2 : info2.side with
          | N => exact absurd hside2 hsN2
          | A =>
            rw [hside2] at hfl2
            exact ⟨lvl2, hfl2, hmem2⟩
          | B =>
            rw [hside2] at hfl2
            by_cases hp2 : info2.price_scaled = info.price_scaled
            · rw [hp2] at hfl2
              have hl2 : lvl2 = lvl := Option.some.inj (hfl2.symm.trans hfl)
              refine ⟨{ lvl with order_ids := lvl.order_ids.erase o.order_id,
                                 total_size := (lvl.total_size + (U64 - info.size % U64)) % U64,
                                 order_count := lvl.order_ids.length - 1 }, ?_, ?_⟩
              · rw [hp2]
                exact mapFind_insert_self _ _ _ _
              · show id2 ∈ lvl.order_ids.erase o.order_id
                rw [List.mem_erase_of_ne hid2]
                rw [hl2] at hmem2
                exact hmem2
            · refine ⟨lvl2, ?_, hmem2⟩
              show mapFind (mapInsert bidLt b.bid_levels info.price_scaled _)
                info2.price_scaled = some lvl2
              rw [mapFind_insert_ne _ _ _ _ _ hp2]
              exact hfl2
        · intro s2 hs2 p2 l2 hfl2
          cases s2 with
          | N => exact absurd rfl hs2
          | A =>
            obtain ⟨h1, h2, h3, h4, h5⟩ := hInv.lvl Side.A (by simp) p2 l2 hfl2
            refine ⟨h1, h2, h3, h4, ?_⟩
            intro id2 hmem2
            obtain ⟨info2, hfind2, hside2, hpr2⟩ := h5 id2 hmem2
            have hid2 : id2 ≠ o.order_id := by
              intro heq
              have h7 := hdet hfind2 heq
              rw [h7, hside] at hside2
              cases hside2
            refine ⟨info2, ?_, hside2, hpr2⟩
            rw [ordFind_erase_ne _ _ _ hid2]
            exact hfind2
          | B =>
            by_cases hp2 : p2 = info.price_scaled
            · subst hp2
              have hLfind : mapFind (mapInsert bidLt b.bid_levels info.price_scaled
                  ({ lvl with order_ids := lvl.order_ids.erase o.order_id,
                              total_size := (lvl.total_size + (U64 - info.size % U64)) % U64,
                              order_count := lvl.order_ids.length - 1 })) info.price_scaled
                  = some ({ lvl with order_ids := lvl.order_ids.erase o.order_id,
                                     total_size := (lvl.total_size + (U64 - info.size % U64)) % U64,
                                     order_count := lvl.order_ids.length - 1 }) :=
                mapFind_insert_self _ _ _ _
              have hl2L := Option.some.inj (((hLfind.symm.trans hfl2)).symm)
              subst hl2L
              refine ⟨?_, ?_, ?_, ?_, ?_⟩
              · show lvl.order_ids.erase o.order_id ≠ []
                intro hnil
                rw [hnil] at herlen
                simp only [List.length_nil] at herlen
                omega
              · exact List.Nodup.erase _ hnd
              · show lvl.order_ids.length - 1
                  = (lvl.order_ids.erase o.order_id).length
                omega
              · show (lvl.order_ids.erase o.order_id).length ≤ k
                omega
              · intro id2 hmem2
                have hmem2b := (List.Nodup.mem_erase_iff hnd).mp hmem2
                obtain ⟨info2, hfind2, hside2, hpr2⟩ := hconv id2 hmem2b.2
                refine ⟨info2, ?_, hside2, hpr2⟩
                rw [ordFind_erase_ne _ _ _ hmem2b.1]
                exact hfind2
            · have hfl2b : mapFind b.bid_levels p2 = some l2 := by
                have h6 : mapFind (mapInsert bidLt b.bid_levels info.price_scaled
                    ({ lvl with order_ids := lvl.order_ids.erase o.order_id,
                                total_size := (lvl.total_size + (U64 - info.size % U64)) % U64,
                                order_count := lvl.order_ids.length - 1 })) p2
                    = mapFind b.bid_levels p2 := mapFind_insert_ne _ _ _ _ _ hp2
                rw [← h6]
                exact hfl2
              obtain ⟨h1, h2, h3, h4, h5⟩ := hInv.lvl Side.B (by simp) p2 l2 hfl2b
              refine ⟨h1, h2, h3, h4, ?_⟩
              intro id2 hmem2
              obtain ⟨info2, hfind2, hside2, hpr2⟩ := h5 id2 hmem2
              have hid2 : id2 ≠ o.order_id := by
                intro heq
                have h7 := hdet hfind2 heq
                rw [h7] at hpr2
                exact hp2 hpr2.symm
              refine ⟨info2, ?_, hside2, hpr2⟩
              rw [ordFind_erase_ne _ _ _ hid2]
              exact hfind2
    | A =>
      rw [hside] at hfl
      obtain ⟨hne, hnd, hcnt, hlen, hconv⟩ :=
        hInv.lvl Side.A (by simp) info.price_scaled lvl hfl
      have hrem := removeOrder_mem lvl o.order_id info.size hmem hcnt
        (lt_of_le_of_lt hlen hk)
      by_cases hone : lvl.order_ids.length = 1
      · have hids : lvl.order_ids = [o.order_id] := by
          obtain ⟨a, ha⟩ := List.length_eq_one.mp hone
          rw [ha] at hmem ⊢
          rw [List.mem_singleton] at hmem
          rw [hmem]
        have hrem2 : lvl.removeOrder o.order_id info.size =
            ({ lvl with order_ids := lvl.order_ids.erase o.order_id,
                        total_size := (lvl.total_size + (U64 - info.size % U64)) % U64,
                        order_count := lvl.order_ids.length - 1 }, true) := by
          rw [hrem]
          simp [hone]
        rw [cancel_shape_found_A hfind hside hfl hrem2, if_pos rfl]
        refine ⟨hInv.sb, sortedM_mapErase hInv.sa, ?_, ?_⟩
        · intro id2 info2 hfind2
          have hid2 : id2 ≠ o.order_id := by
            intro heq
            rw [heq, ordFind_erase_self] at hfind2
            cases hfind2
          rw [ordFind_erase_ne _ _ _ hid2] at hfind2
          obtain ⟨hsN2, lvl2, hfl2, hmem2⟩ := hInv.fwd id2 info2 hfind2
          refine ⟨hsN2, ?_⟩
          cases hside2 : info2.side with
          | N => exact absurd hside2 hsN2
          | B =>
            rw [hside2] at hfl2
            exact ⟨lvl2, hfl2, hmem2⟩
          | A =>
            rw [hside2] at hfl2
            by_cases hp2 : info2.price_scaled = info.price_scaled
            · exfalso
              rw [hp2] at hfl2
              have hl2 : lvl2 = lvl := Option.some.inj (hfl2.symm.trans hfl)
              rw [hl2, hids, List.mem_singleton] at hmem2
              exact hid2 hmem2
            · refine ⟨lvl2, ?_, hmem2⟩
              show mapFind (mapErase b.ask_levels info.price_scaled)
                info2.price_scaled = some lvl2
              rw [mapFind_erase_ne _ _ _ hp2]
              exact hfl2
        · intro s2 hs2 p2 l2 hfl2
          cases s2 with
          | N => exact absurd rfl hs2
          | B =>
            obtain ⟨h1, h2, h3, h4, h5⟩ := hInv.lvl Side.B (by simp) p2 l2 hfl2
            refine ⟨h1, h2, h3, h4, ?_⟩
            intro id2 hmem2
            obtain ⟨info2, hfind2, hside2, hpr2⟩ := h5 id2 hmem2
            have hid2 : id2 ≠ o.order_id := by
              intro heq
              have h7 := hdet hfind2 heq
              rw [h7, hside] at hside2
              cases hside2
            refine ⟨info2, ?_, hside2, hpr2⟩
            rw [ordFind_erase_ne _ _ _ hid2]
            exact hfind2
          | A =>
            have hp2 : p2 ≠ info.price_scaled := by
              intro heq
              have h7 : mapFind (mapErase b.ask_levels info.price_scaled) p2
                  = none := by
                rw [heq]
                exact mapFind_erase_self _ _
              rw [show (sideMap { b with
                    ask_levels := mapErase b.ask_levels info.price_scaled,
                    active_orders := ordErase b.active_orders o.order_id }
                  Side.A) = mapErase b.ask_levels info.price_scaled from rfl,
                h7] at hfl2
              cases hfl2
            have hfl2b : mapFind b.ask_levels p2 = some l2 := by
              have h6 : mapFind (mapErase b.ask_levels info.price_scaled) p2
                  = mapFind b.ask_levels p2 := mapFind_erase_ne _ _ _ hp2
              rw [← h6]
              exact hfl2
            obtain ⟨h1, h2, h3, h4, h5⟩ := hInv.lvl Side.A (by simp) p2 l2 hfl2b
            refine ⟨h1, h2, h3, h4, ?_⟩
            intro id2 hmem2
            obtain ⟨info2, hfind2, hside2, hpr2⟩ := h5 id2 hmem2
            have hid2 : id2 ≠ o.order_id := by
              intro heq
              have h7 := hdet hfind2 heq
              rw [h7] at hpr2
              exact hp2 hpr2.symm
            refine ⟨info2, ?_, hside2, hpr2⟩
            rw [ordFind_erase_ne _ _ _ hid2]
            exact hfind2
      · have hrem2 : lvl.removeOrder o.order_id info.size =
            ({ lvl with order_ids := lvl.order_ids.erase o.order_id,
                        total_size := (lvl.total_size + (U64 - info.size % U64)) % U64,
                        order_count := lvl.order_ids.length - 1 }, false) := by
          rw [hrem]
          simp [hone]
        rw [cancel_shape_found_A hfind hside hfl hrem2, if_neg (by simp)]
        have hlen1 : 1 ≤ lvl.order_ids.length :=
          List.length_pos.mpr (List.ne_nil_of_mem hmem)
        have herlen : (lvl.order_ids.erase o.order_id).length
            = lvl.order_ids.length - 1 := List.length_erase_of_mem hmem
        refine ⟨hInv.sb, sortedM_mapInsert askLt_trans askLt_total _ hInv.sa, ?_, ?_⟩
        · intro id2 info2 hfind2
          have hid2 : id2 ≠ o.order_id := by
            intro heq
            rw [heq, ordFind_erase_self] at hfind2
            cases hfind2
          rw [ordFind_erase_ne _ _ _ hid2] at hfind2
          obtain ⟨hsN2, lvl2, hfl2, hmem2⟩ := hInv.fwd id2 info2 hfind2
          refine ⟨hsN2, ?_⟩
          cases hside2 : info2.side with
          | N => exact absurd hside2 hsN2
          | B =>
            rw [hside2] at hfl2
            exact ⟨lvl2, hfl2, hmem2⟩
          | A =>
            rw [hside2] at hfl2
            by_cases hp2 : info2.price_scaled = info.price_scaled
            · rw [hp2] at hfl2
              have hl2 : lvl2 = lvl := Option.some.inj (hfl2.symm.trans hfl)
              refine ⟨{ lvl with order_ids := lvl.order_ids.erase o.order_id,
                                 total_size := (lvl.total_size + (U64 - info.size % U64)) % U64,
                                 order_count := lvl.order_ids.length - 1 }, ?_, ?_⟩
              · rw [hp2]
                exact mapFind_insert_self _ _ _ _
              · show id2 ∈ lvl.order_ids.erase o.order_id
                rw [List.mem_erase_of_ne hid2]
                rw [hl2] at hmem2
                exact hmem2
            · refine ⟨lvl2, ?_, hmem2⟩
              show mapFind (mapInsert askLt b.ask_levels info.price_scaled _)
                info2.price_scaled = some lvl2
              rw [mapFind_insert_ne _ _ _ _ _ hp2]
              exact hfl2
        · intro s2 hs2 p2 l2 hfl2
          cases s2 with
          | N => exact absurd rfl hs2
          | B =>
            obtain ⟨h1, h2, h3, h4, h5⟩ := hInv.lvl Side.B (by simp) p2 l2 hfl2
            refine ⟨h1, h2, h3, h4, ?_⟩
            intro id2 hmem2
            obtain ⟨info2, hfind2, hside2, hpr2⟩ := h5 id2 hmem2
            have hid2 : id2 ≠ o.order_id := by
              intro heq
              have h7 := hdet hfind2 heq
              rw [h7, hside] at hside2
              cases hside2
            refine ⟨info2, ?_, hside2, hpr2⟩
            rw [ordFind_erase_ne _ _ _ hid2]
            exact hfind2
          | A =>
            by_cases hp2 : p2 = info.price_scaled
            · subst hp2
              have hLfind : mapFind (mapInsert askLt b.ask_levels info.price_scaled
                  ({ lvl with order_ids := lvl.order_ids.erase o.order_id,
                              total_size := (lvl.total_size + (U64 - info.size % U64)) % U64,
                              order_count := lvl.order_ids.length - 1 })) info.price_scaled
                  = some ({ lvl with order_ids := lvl.order_ids.erase o.order_id,
                                     total_size := (lvl.total_size + (U64 - info.size % U64)) % U64,
                                     order_count := lvl.order_ids.length - 1 }) :=
                mapFind_insert_self _ _ _ _
              have hl2L := Option.some.inj (((hLfind.symm.trans hfl2)).symm)
              subst hl2L
              refine ⟨?_, ?_, ?_, ?_, ?_⟩
              · show lvl.order_ids.erase o.order_id ≠ []
                intro hnil
                rw [hnil] at herlen
                simp only [List.length_nil] at herlen
                omega
              · exact List.Nodup.erase _ hnd
              · show lvl.order_ids.length - 1
                  = (lvl.order_ids.erase o.order_id).length
                omega
              · show (lvl.order_ids.erase o.order_id).length ≤ k
                omega
              · intro id2 hmem2
                have hmem2b := (List.Nodup.mem_erase_iff hnd).mp hmem2
                obtain ⟨info2, hfind2, hside2, hpr2⟩ := hconv id2 hmem2b.2
                refine ⟨info2, ?_, hside2, hpr2⟩
                rw [ordFind_erase_ne _ _ _ hmem2b.1]
                exact hfind2
            · have hfl2b : mapFind b.ask_levels p2 = some l2 := by
                have h6 : mapFind (mapInsert askLt b.ask_levels info.price_scaled
                    ({ lvl with order_ids := lvl.order_ids.erase o.order_id,
                                total_size := (lvl.total_size + (U64 - info.size % U64)) % U64,
                                order_count := lvl.order_ids.length - 1 })) p2
                    = mapFind b.ask_levels p2 := mapFind_insert_ne _ _ _ _ _ hp2
                rw [← h6]
                exact hfl2
              obtain ⟨h1, h2, h3, h4, h5⟩ := hInv.lvl Side.A (by simp) p2 l2 hfl2b
              refine ⟨h1, h2, h3, h4, ?_⟩
              intro id2 hmem2
              obtain ⟨info2, hfind2, hside2, hpr2⟩ := h5 id2 hmem2
              have hid2 : id2 ≠ o.order_id := by
                intro heq
                have h7 := hdet hfind2 heq
                rw [h7] at hpr2
                exact hp2 hpr2.symm
              refine ⟨info2, ?_, hside2, hpr2⟩
              rw [ordFind_erase_ne _ _ _ hid2]
              exact hfind2

/-- The book after dispatch, by action. -/
theorem process_order_fst (b : Book) (o : Order) :
    (process_order b o).1 = (match o.action with
      | Action.clear => emptyBook
      | Action.add => (add_order b o).1
      | Action.cancel => (cancel_order b o).1
      | Action.trade => b
      | Action.fill => b) := by
  unfold process_order
  cases o.action <;> dsimp only <;> split <;> rfl

/-- One driver step preserves the invariant under the fresh-Add side
condition. -/
theorem inv_rstep {st : Recon} {ev : Order} {k : Nat} (hInv : Inv k st.book)
    (hk : k + 1 < U32)
    (hfresh : ev.action = Action.add →
      ordFind st.book.active_orders ev.order_id = none) :
    Inv (k + 1) (rstep st ev).book := by
  unfold rstep
  by_cases hc : st.first_clear_ignored = false ∧ ev.action = Action.clear
  · rw [if_pos hc]
    exact inv_mono (Nat.le_succ k) hInv
  · rw [if_neg hc]
    have hbook : (match process_order st.book ev with
        | (b2, some row) => { st with book := b2, rows := st.rows ++ [row] }
        | (b2, none) => { st with book := b2 }).book
        = (process_order st.book ev).1 := by
      cases hp : process_order st.book ev with
      | mk b2 r => cases r <;> rfl
    rw [hbook, process_order_fst]
    cases ha : ev.action with
    | clear => exact inv_empty _
    | add => exact inv_add hInv hk (hfresh ha)
    | cancel => exact inv_mono (Nat.le_succ k) (inv_cancel hInv (by omega))
    | trade => exact inv_mono (Nat.le_succ k) hInv
    | fill => exact inv_mono (Nat.le_succ k) hInv

/-- Every Add of the list carries an id that is not live at the moment
the Add is applied (the no-duplicate-Add side condition). -/
def freshAdds : Recon → List Order → Bool
  | _, [] => true
  | st, ev :: rest =>
    (if ev.action = Action.add then
      (ordFind st.book.active_orders ev.order_id).isNone
     else true) && freshAdds (rstep st ev) rest

/-- Running the driver preserves the invariant, the population bound
growing by the number of events. -/
theorem inv_run (evs : List Order) (st : Recon) (k : Nat)
    (hInv : Inv k st.book) (hfa : freshAdds st evs = true)
    (hk : k + evs.length < U32) :
    Inv (k + evs.length) (evs.foldl rstep st).book := by
  induction evs generalizing st k with
  | nil => simpa using hInv
  | cons e t ih =>
    simp only [freshAdds, Bool.and_eq_true] at hfa
    have hfr : e.action = Action.add →
        ordFind st.book.active_orders e.order_id = none := by
      intro ha
      have h1 := hfa.1
      rw [if_pos ha] at h1
      exact Option.isNone_iff_eq_none.mp h1
    have h1 : Inv (k + 1) (rstep st e).book :=
      inv_rstep hInv (by rw [List.length_cons] at hk; omega) hfr
    have h2 := ih (rstep st e) (k + 1) h1 hfa.2
      (by rw [List.length_cons] at hk; omega)
    have hlen : k + (e :: t).length = (k + 1) + t.length := by
      rw [List.length_cons]
      omega
    rw [List.foldl_cons, hlen]
    exact h2

/-- Claim C4 amended: for every non-empty event prefix of fewer than
`2^32` events applied to a fresh engine in which no Add reuses a live
order id, the order index and the price levels point at each other: a
live id's recorded (side, price) names an existing level containing it,
and every resident id is indexed back at exactly that level. -/
theorem claim_C4_amended (evs : List Order) (hne : evs ≠ [])
    (hlen : evs.length < U32) (hfa : freshAdds initRecon evs = true) :
    (∀ id info, ordFind ((runEvents evs).book).active_orders id = some info →
      ∃ lvl, mapFind (sideMap (runEvents evs).book info.side) info.price_scaled
          = some lvl ∧ id ∈ lvl.order_ids) ∧
    (∀ s, s ≠ Side.N → ∀ p lvl,
      mapFind (sideMap (runEvents evs).book s) p = some lvl →
      ∀ id ∈ lvl.order_ids,
        ∃ info, ordFind ((runEvents evs).book).active_orders id = some info ∧
          info.side = s ∧ info.price_scaled = p) := by
  have h := inv_run evs initRecon 0 (inv_empty 0) hfa (by simpa using hlen)
  constructor
  · intro id info hf
    exact (h.fwd id info hf).2
  · intro s hs p lvl hf id hid
    exact (h.lvl s hs p lvl hf).2.2.2.2 id hid

/-- C4 amended at a concrete two-event prefix. -/
theorem claim_C4_amended_witness :
    (∀ id info, ordFind ((runEvents
        [{ order_id := 1, price_scaled := 100, size := 3, side := Side.B,
           action := Action.add },
         { order_id := 2, price_scaled := 90, size := 4, side := Side.A,
           action := Action.add }]).book).active_orders id = some info →
      ∃ lvl, mapFind (sideMap (runEvents
        [{ order_id := 1, price_scaled := 100, size := 3, side := Side.B,
           action := Action.add },
         { order_id := 2, price_scaled := 90, size := 4, side := Side.A,
           action := Action.add }]).book info.side) info.price_scaled
          = some lvl ∧ id ∈ lvl.order_ids) ∧
    (∀ s, s ≠ Side.N → ∀ p lvl,
      mapFind (sideMap (runEvents
        [{ order_id := 1, price_scaled := 100, size := 3, side := Side.B,
           action := Action.add },
         { order_id := 2, price_scaled := 90, size := 4, side := Side.A,
           action := Action.add }]).book s) p = some lvl →
      ∀ id ∈ lvl.order_ids,
        ∃ info, ordFind ((runEvents
        [{ order_id := 1, price_scaled := 100, size := 3, side := Side.B,
           action := Action.add },
         { order_id := 2, price_scaled := 90, size := 4, side := Side.A,
           action := Action.add }]).book).active_orders id = some info ∧
          info.side = s ∧ info.price_scaled = p) :=
  claim_C4_amended _ (by decide) (by decide) (by decide)

end MBP
